import Mathlib

/-!
Verification development for the marketplace validator
(`scripts/validate_marketplace.py`).

The script is embedded shallowly:

* Python strings are `String`; character-level work is done on `String.data`
  (`List Char`) with hand-rolled structural helpers so that every definition
  evaluates by kernel reduction.
* Parsed JSON documents are `JValue`; reading a file from disk is abstracted
  by `FileData` (the outcome of `Path.read_text` + `json.loads`, which are
  outside this repository).
* The process-wide PASS/FAIL/WARN accounting (`record_pass`, `record_fail`,
  `record_warn`) is modelled as an append-only list of `Entry`; each layer
  function returns the list of entries it appends, in order.
* Python exceptions that can escape a layer (OSError from `read_text`,
  AttributeError from `.get` on a non-dict, TypeError from `re.match` on a
  non-string or from `len` on a value without a length, ...) are modelled
  with `Except String`, the error being the exception name.
* Regexes with a hand-written equivalent automaton: `KEBAB_RE`, `SEMVER_RE`,
  and the key regex of `parse_frontmatter`.  Python `\w` and `\d` are
  modelled by their ASCII subsets (the repository only uses ASCII names).
  The two purely heuristic regexes of layer 5 (`FIRST_SECOND_PERSON_RE`,
  `TRIGGER_CONTEXT_RE`) and the fenced-code-block stripper are abstracted as
  functional parameters of `layer5_quality`, since every theorem below holds
  for all of them.
-/

namespace MarketplaceValidator

/- ── result accumulator ────────────────────────────────────────────── -/

/-- One PASS/FAIL/WARN status, as printed by the record helpers. -/
inductive Status where
  | pass
  | fail
  | warn
deriving DecidableEq, Repr

/-- One appended log line: `record_pass` / `record_fail` / `record_warn`
produce exactly one `Entry` each (the global counters of the script count
these entries; `failure_details` / `warning_details` keep the nonempty
`detail` strings). -/
structure Entry where
  status : Status
  label : String
  detail : String
deriving DecidableEq, Repr

/-- `record_pass(label)` — a PASS line (no detail argument in the source). -/
def record_pass (label : String) : Entry := ⟨.pass, label, ""⟩

/-- `record_fail(label, detail)`. -/
def record_fail (label : String) (detail : String := "") : Entry :=
  ⟨.fail, label, detail⟩

/-- `record_warn(label, detail)`. -/
def record_warn (label : String) (detail : String := "") : Entry :=
  ⟨.warn, label, detail⟩

/-- Number of FAIL entries in a log (the script's `failed` counter). -/
def countFails (es : List Entry) : Nat :=
  es.countP (fun e => e.status == Status.fail)

/-- Number of WARN entries in a log (the script's `warned` counter). -/
def countWarns (es : List Entry) : Nat :=
  es.countP (fun e => e.status == Status.warn)

/-- Number of PASS entries in a log (the script's `passed` counter). -/
def countPasses (es : List Entry) : Nat :=
  es.countP (fun e => e.status == Status.pass)

/- ── character/string helpers (Python semantics, on `List Char`) ───── -/

/-- Python whitespace set used by `str.strip()` / `\s`. -/
def isPySpace (c : Char) : Bool :=
  c == ' ' || c == '\t' || c == '\n' || c == '\r' || c == '\x0b' || c == '\x0c'

/-- `str.strip()` on a character list. -/
def pyStrip (l : List Char) : List Char :=
  ((l.dropWhile isPySpace).reverse.dropWhile isPySpace).reverse

/-- `str.strip()` on a `String`. -/
def pyStripS (s : String) : String := String.mk (pyStrip s.data)

/-- First index `≥ i` at which `sub` occurs in the list, if any
(the worker behind Python `str.find(sub, start)` and `sub in s`). -/
def findSubAux (sub : List Char) : List Char → Nat → Option Nat
  | l, i =>
    if sub.isPrefixOf l then some i
    else
      match l with
      | [] => none
      | _ :: rest => findSubAux sub rest (i + 1)

/-- Python `s.find(sub, start)` (as an `Option` instead of `-1`). -/
def findSubFrom (s sub : List Char) (start : Nat) : Option Nat :=
  findSubAux sub (s.drop start) start

/-- Python `sub in s` (substring containment). -/
def hasSubstrS (s sub : String) : Bool :=
  (findSubAux sub.data s.data 0).isSome

/-- Python `s.startswith(pre)`. -/
def startsWithS (s pre : String) : Bool :=
  pre.data.isPrefixOf s.data

/-- Python `s.split("\n")`: `[""]` on the empty string, separators kept
as boundaries. -/
def splitLines : List Char → List (List Char)
  | [] => [[]]
  | c :: rest =>
    if c = '\n' then [] :: splitLines rest
    else
      match splitLines rest with
      | [] => [[c]]
      | l :: ls => (c :: l) :: ls

/-- `" ".join(parts)`. -/
def joinSpace : List (List Char) → List Char
  | [] => []
  | [l] => l
  | l :: rest => l ++ ' ' :: joinSpace rest

/-- Python `s.count("\n")`. -/
def countNL (l : List Char) : Nat := l.countP (fun c => c == '\n')

/-- Python `s.endswith("\n")`. -/
def endsWithNL (s : String) : Bool := s.data.getLast? == some '\n'

/- ── frontmatter parser (`parse_frontmatter`) ──────────────────────── -/

/-- `[\w-]` of the key regex `^([a-z][\w-]*):\s*(.*)` (ASCII subset of
Python `\w`, plus the hyphen). -/
def isWordDash (c : Char) : Bool := c.isAlphanum || c == '_' || c == '-'

/-- `re.match(r"^([a-z][\w-]*):\s*(.*)", line)`, returning
`(m.group(1), m.group(2).strip())` — the greedy `\s*` plus the later
`.strip()` make the value the both-ends-stripped text after the colon. -/
def keyMatch (line : List Char) : Option (List Char × List Char) :=
  match line with
  | [] => none
  | c :: rest =>
    if c.isLower then
      match rest.dropWhile isWordDash with
      | ':' :: tail => some (c :: rest.takeWhile isWordDash, pyStrip tail)
      | _ => none
    else none

/-- `val in (">", "|", ">-", "|-")` — the block-scalar indicators. -/
def isIndicator (v : List Char) : Bool :=
  v == ['>'] || v == ['|'] || v == ['>', '-'] || v == ['|', '-']

/-- `line.startswith(" ")`. -/
def startsSpace : List Char → Bool
  | [] => false
  | c :: _ => c == ' '

/-- Python dict assignment `d[k] = v` on an association list: update in
place if the key exists (keeping its position), else append. -/
def dictSet (d : List (List Char × List Char)) (k v : List Char) :
    List (List Char × List Char) :=
  match d with
  | [] => [(k, v)]
  | (k', v') :: rest =>
    if k' = k then (k, v) :: rest else (k', v') :: dictSet rest k v

/-- The loop state of `parse_frontmatter`: the dict built so far,
`current_key`, `current_val_lines` and `is_block`. -/
structure PFState where
  fm : List (List Char × List Char)
  key : List Char
  vlines : List (List Char)
  isBlock : Bool

/-- `_flush()`: store `" ".join(l.strip() for l in current_val_lines if
l.strip())` under `current_key` (when a key is active). -/
def flushFM (st : PFState) : List (List Char × List Char) :=
  if st.key = [] then st.fm
  else dictSet st.fm st.key
    (joinSpace ((st.vlines.map pyStrip).filter (fun l => !l.isEmpty)))

/-- The body of the `for line in raw.split("\n")` loop. -/
def pfStep (st : PFState) (line : List Char) : PFState :=
  match keyMatch line with
  | some (k, v) =>
    if st.isBlock && startsSpace line then
      { st with vlines := st.vlines ++ [line] }
    else
      { fm := flushFM st
        key := k
        vlines := if isIndicator v then [] else [v]
        isBlock := isIndicator v }
  | none => { st with vlines := st.vlines ++ [line] }

/-- `parse_frontmatter` on the character list of the document. -/
def parseFrontmatterL (text : List Char) :
    List (List Char × List Char) × List Char :=
  if ("---".data.isPrefixOf text) then
    match findSubFrom text "\n---".data 3 with
    | none => ([], text)
    | some e =>
      let raw := (text.drop 4).take (e - 4)
      let body := (text.drop (e + 4)).dropWhile (fun c => c = '\n')
      let final := (splitLines raw).foldl pfStep ⟨[], [], [], false⟩
      (flushFM final, body)
  else ([], text)

/-- `parse_frontmatter(text)`: `(frontmatter dict, body)`. -/
def parse_frontmatter (text : String) : List (String × String) × String :=
  let r := parseFrontmatterL text.data
  (r.1.map (fun p => (String.mk p.1, String.mk p.2)), String.mk r.2)

/-- `fm.get(key, "")` on the parsed frontmatter dict. -/
def fmGetD (fm : List (String × String)) (k : String) : String :=
  (fm.lookup k).getD ""

/- ── statement-side helpers for the frontmatter claims ─────────────── -/

/-- A well-formed top-level key for the header regex: one lowercase ASCII
letter followed by word/hyphen characters. -/
def isKeyToken (l : List Char) : Bool :=
  match l with
  | [] => false
  | c :: cs => c.isLower && cs.all isWordDash

/-- `"\n" ++ l₀ ++ "\n" ++ l₁ ++ ...` — the indented lines of a block
scalar, each on its own line. -/
def joinNLs : List String → String
  | [] => ""
  | l :: rest => "\n" ++ l ++ joinNLs rest

/-- A document whose header holds a single field `k` with block-scalar
indicator `ind` followed by the indented lines `ls`, then the closing
delimiter and the body `B`. -/
def blockDoc (k ind : String) (ls : List String) (B : String) : String :=
  "---\n" ++ k ++ ": " ++ ind ++ joinNLs ls ++ "\n---" ++ B

/-- The lines' trimmed content joined by single spaces, in order — the
value the spec promises for a block scalar. -/
def spaceJoinTrim (ls : List String) : String :=
  String.mk (joinSpace (ls.map (fun l => pyStrip l.data)))

/-- `lsJoin [l₀, l₁, ...] = '\n' :: l₀ ++ '\n' :: l₁ ++ ...`
(character-level image of `joinNLs`). -/
def lsJoin : List (List Char) → List Char
  | [] => []
  | l :: rest => '\n' :: (l ++ lsJoin rest)

/- ── claim C6 ──────────────────────────────────────────────────────── -/

/-- C6: for every document that does not begin with the opening
frontmatter delimiter `---`, `parse_frontmatter` returns an empty field
map and the original text unchanged as the body.  (The embedding is a
total function, so no error is ever raised.) -/
theorem c6_no_delimiter_identity (text : String)
    (h : ("---".data.isPrefixOf text.data) = false) :
    parse_frontmatter text = ([], text) := by
  unfold parse_frontmatter parseFrontmatterL
  simp [h]

/-- Witness for C6 at the concrete document `"hello"`. -/
theorem c6_no_delimiter_identity_witness :
    ("---".data.isPrefixOf ("hello" : String).data) = false ∧
    parse_frontmatter "hello" = ([], "hello") :=
  ⟨by decide, c6_no_delimiter_identity "hello" (by decide)⟩

/- ── claim C7: lemmas about the embedded parser ────────────────────── -/

theorem findSubAux_of_isPrefixOf (sub l : List Char) (i : Nat)
    (h : sub.isPrefixOf l = true) : findSubAux sub l i = some i := by
  unfold findSubAux
  simp [h]

theorem findSubAux_cons (sub : List Char) (c : Char) (l : List Char) (i : Nat)
    (h : sub.isPrefixOf (c :: l) = false) :
    findSubAux sub (c :: l) i = findSubAux sub l (i + 1) := by
  conv_lhs => unfold findSubAux
  simp [h]

/-- The four characters of the closing-delimiter search string `"\n---"`. -/
def nl4 : List Char := ['\n', '-', '-', '-']

theorem nl4_not_isPrefixOf_cons (c : Char) (l : List Char) (h : c ≠ '\n') :
    nl4.isPrefixOf (c :: l) = false := by
  simp [nl4, List.isPrefixOf, beq_eq_false_iff_ne]
  intro hc
  exact absurd hc.symm h

theorem walk_noNL (seg : List Char) (h : '\n' ∉ seg) (rest : List Char)
    (i : Nat) :
    findSubAux nl4 (seg ++ rest) i = findSubAux nl4 rest (i + seg.length) := by
  induction seg generalizing i with
  | nil => simp
  | cons c cs ih =>
    have hc : c ≠ '\n' := fun e => h (e ▸ List.mem_cons_self c cs)
    have h2 : '\n' ∉ cs := fun e => h (List.mem_cons_of_mem c e)
    rw [List.cons_append,
      findSubAux_cons _ _ _ _ (nl4_not_isPrefixOf_cons c _ hc), ih h2]
    congr 1
    simp
    omega

theorem walk_nl_line (c : Char) (cs rest : List Char) (i : Nat)
    (hc : c ≠ '-') (h : '\n' ∉ c :: cs) :
    findSubAux nl4 ('\n' :: ((c :: cs) ++ rest)) i =
      findSubAux nl4 rest (i + 1 + (c :: cs).length) := by
  have hpre : nl4.isPrefixOf ('\n' :: ((c :: cs) ++ rest)) = false := by
    simp [nl4, List.isPrefixOf, beq_eq_false_iff_ne]
    intro hc2
    exact absurd hc2.symm hc
  rw [findSubAux_cons _ _ _ _ hpre, walk_noNL (c :: cs) h rest (i + 1)]

theorem walk_lsJoin (ls : List (List Char))
    (hls : ∀ l ∈ ls, startsSpace l = true ∧ '\n' ∉ l) (rest : List Char)
    (i : Nat) (hrest : nl4.isPrefixOf rest = true) :
    findSubAux nl4 (lsJoin ls ++ rest) i = some (i + (lsJoin ls).length) := by
  induction ls generalizing i with
  | nil => simp [lsJoin, findSubAux_of_isPrefixOf _ _ _ hrest]
  | cons l ls ih =>
    obtain ⟨hsp, hnl⟩ := hls l (List.mem_cons_self l ls)
    match l, hsp with
    | c :: t, hsp =>
      have hc : c = ' ' := by simpa [startsSpace] using hsp
      have hcd : c ≠ '-' := by rw [hc]; decide
      have heq : lsJoin ((c :: t) :: ls) ++ rest =
          '\n' :: ((c :: t) ++ (lsJoin ls ++ rest)) := by
        simp [lsJoin]
      rw [heq, walk_nl_line c t _ i hcd hnl,
        ih (fun x hx => hls x (List.mem_cons_of_mem _ hx))]
      congr 1
      simp [lsJoin]
      omega

theorem splitLines_noNL (a : List Char) (h : '\n' ∉ a) :
    splitLines a = [a] := by
  induction a with
  | nil => rfl
  | cons c cs ih =>
    have hc : c ≠ '\n' := fun e => h (e ▸ List.mem_cons_self c cs)
    have h2 : '\n' ∉ cs := fun e => h (List.mem_cons_of_mem c e)
    simp [splitLines, hc, ih h2]

theorem splitLines_append_nl (a rest : List Char) (h : '\n' ∉ a) :
    splitLines (a ++ '\n' :: rest) = a :: splitLines rest := by
  induction a with
  | nil => simp [splitLines]
  | cons c cs ih =>
    have hc : c ≠ '\n' := fun e => h (e ▸ List.mem_cons_self c cs)
    have h2 : '\n' ∉ cs := fun e => h (List.mem_cons_of_mem c e)
    rw [List.cons_append]
    simp [splitLines, hc, ih h2]

theorem splitLines_keyline_lsJoin (kl : List Char) (hkl : '\n' ∉ kl)
    (ls : List (List Char)) (hls : ∀ l ∈ ls, '\n' ∉ l) :
    splitLines (kl ++ lsJoin ls) = kl :: ls := by
  induction ls generalizing kl with
  | nil => simp [lsJoin, splitLines_noNL kl hkl]
  | cons l ls ih =>
    have : kl ++ lsJoin (l :: ls) = kl ++ '\n' :: (l ++ lsJoin ls) := by
      simp [lsJoin]
    rw [this, splitLines_append_nl kl _ hkl,
      ih l (hls l (List.mem_cons_self l ls))
        (fun x hx => hls x (List.mem_cons_of_mem _ hx))]

theorem takeWhile_append_stop (p : Char → Bool) (xs : List Char)
    (hxs : ∀ x ∈ xs, p x = true) (y : Char) (hy : p y = false)
    (rest : List Char) :
    (xs ++ y :: rest).takeWhile p = xs ∧
      (xs ++ y :: rest).dropWhile p = y :: rest := by
  induction xs with
  | nil => simp [List.takeWhile, List.dropWhile, hy]
  | cons x xs ih =>
    have hx : p x = true := hxs x (List.mem_cons_self x xs)
    obtain ⟨h1, h2⟩ := ih (fun a ha => hxs a (List.mem_cons_of_mem x ha))
    simp [List.takeWhile_cons, List.dropWhile_cons, hx, h1, h2]

theorem keyMatch_keyline (c : Char) (cs ind : List Char)
    (hc : c.isLower = true) (hcs : ∀ x ∈ cs, isWordDash x = true) :
    keyMatch ((c :: cs) ++ ':' :: ' ' :: ind) =
      some (c :: cs, pyStrip (' ' :: ind)) := by
  have hcolon : isWordDash ':' = false := by decide
  obtain ⟨h1, h2⟩ := takeWhile_append_stop isWordDash cs hcs ':' hcolon
    (' ' :: ind)
  rw [List.cons_append]
  simp [keyMatch, hc, h1, h2]

theorem pfStep_block_append (st : PFState) (hb : st.isBlock = true)
    (l : List Char) (hl : startsSpace l = true) :
    pfStep st l = { st with vlines := st.vlines ++ [l] } := by
  unfold pfStep
  cases keyMatch l <;> simp [hb, hl]

theorem foldl_block (ls : List (List Char)) (st : PFState)
    (hb : st.isBlock = true) (hls : ∀ l ∈ ls, startsSpace l = true) :
    ls.foldl pfStep st = { st with vlines := st.vlines ++ ls } := by
  induction ls generalizing st with
  | nil => simp
  | cons l ls ih =>
    rw [List.foldl_cons,
      pfStep_block_append st hb l (hls l (List.mem_cons_self l ls)),
      ih _ (by simp [hb]) (fun x hx => hls x (List.mem_cons_of_mem _ hx))]
    simp

theorem joinNLs_data (ls : List String) :
    (joinNLs ls).data = lsJoin (ls.map String.data) := by
  induction ls with
  | nil => rfl
  | cons l rest ih => simp [joinNLs, lsJoin, ih]

/-- Running the parser on a document whose header is a single field
`c :: cs` carrying a block-scalar indicator `ind` followed by the indented
lines `LS`: the field map holds exactly that key, bound to the trimmed
lines joined by single spaces. -/
theorem parseFrontmatterL_block (c : Char) (cs ind : List Char)
    (LS : List (List Char)) (Bd : List Char)
    (hc : c.isLower = true) (hcs : ∀ x ∈ cs, isWordDash x = true)
    (hind : isIndicator ind = true) (hindnl : '\n' ∉ ind)
    (hindstrip : pyStrip (' ' :: ind) = ind)
    (hLS : ∀ l ∈ LS, startsSpace l = true ∧ '\n' ∉ l ∧ pyStrip l ≠ []) :
    (parseFrontmatterL ('-' :: '-' :: '-' :: '\n' ::
        ((c :: cs) ++ ':' :: ' ' :: ind ++ lsJoin LS ++
          ('\n' :: '-' :: '-' :: '-' :: Bd)))).1 =
      [(c :: cs, joinSpace (LS.map pyStrip))] := by
  set nlB : List Char := '\n' :: '-' :: '-' :: '-' :: Bd with hnlB
  set kl : List Char := (c :: cs) ++ ':' :: ' ' :: ind with hkl
  have hklnl : '\n' ∉ kl := by
    rw [hkl]
    intro hmem
    simp only [List.mem_append, List.mem_cons] at hmem
    rcases hmem with (h | h) | h | h | h
    · rw [← h] at hc; exact absurd hc (by decide)
    · exact absurd (hcs '\n' h) (by decide)
    · exact absurd h (by decide)
    · exact absurd h (by decide)
    · exact hindnl h
  have hLSnl : ∀ l ∈ LS, '\n' ∉ l := fun l hl => (hLS l hl).2.1
  have hLSsp : ∀ l ∈ LS, startsSpace l = true ∧ '\n' ∉ l :=
    fun l hl => ⟨(hLS l hl).1, (hLS l hl).2.1⟩
  have htext : ('-' :: '-' :: '-' :: '\n' ::
      ((c :: cs) ++ ':' :: ' ' :: ind ++ lsJoin LS ++ nlB)) =
      '-' :: '-' :: '-' :: '\n' :: ((kl ++ lsJoin LS) ++ nlB) := by
    simp [hkl]
  have hpre : ("---".data.isPrefixOf ('-' :: '-' :: '-' :: '\n' ::
      ((kl ++ lsJoin LS) ++ nlB))) = true := by
    simp [List.isPrefixOf, show "---".data = ['-', '-', '-'] from rfl]
  have hnl4pre : nl4.isPrefixOf nlB = true := by
    simp [nl4, hnlB, List.isPrefixOf]
  have hfind : findSubFrom ('-' :: '-' :: '-' :: '\n' ::
      ((kl ++ lsJoin LS) ++ nlB)) "\n---".data 3 =
      some (4 + (kl ++ lsJoin LS).length) := by
    rw [show "\n---".data = nl4 from rfl]
    unfold findSubFrom
    rw [show (('-' :: '-' :: '-' :: '\n' ::
        ((kl ++ lsJoin LS) ++ nlB)).drop 3) =
        '\n' :: ((kl ++ lsJoin LS) ++ nlB) from rfl]
    have hshape : ('\n' : Char) :: ((kl ++ lsJoin LS) ++ nlB) =
        '\n' :: ((c :: (cs ++ ':' :: ' ' :: ind)) ++ (lsJoin LS ++ nlB)) := by
      simp [hkl]
    rw [hshape]
    have hcdash : c ≠ '-' := by
      intro h; rw [h] at hc; exact absurd hc (by decide)
    have hklnl2 : '\n' ∉ c :: (cs ++ ':' :: ' ' :: ind) := by
      intro h
      apply hklnl
      rw [hkl]
      simpa using h
    rw [walk_nl_line c (cs ++ ':' :: ' ' :: ind) _ 3 hcdash hklnl2,
      walk_lsJoin LS hLSsp nlB _ hnl4pre]
    congr 1
    simp [hkl]
    omega
  rw [htext]
  unfold parseFrontmatterL
  rw [if_pos hpre, hfind]
  simp only
  have hdrop : (('-' :: '-' :: '-' :: '\n' ::
      ((kl ++ lsJoin LS) ++ nlB)).drop 4) = (kl ++ lsJoin LS) ++ nlB := rfl
  have htake : (((kl ++ lsJoin LS) ++ nlB).take
      (4 + (kl ++ lsJoin LS).length - 4)) = kl ++ lsJoin LS := by
    rw [show 4 + (kl ++ lsJoin LS).length - 4 = (kl ++ lsJoin LS).length
      by omega]
    exact List.take_left _ _
  rw [hdrop, htake, splitLines_keyline_lsJoin kl hklnl LS hLSnl,
    List.foldl_cons]
  have hstep1 : pfStep ⟨[], [], [], false⟩ kl =
      ⟨[], c :: cs, [], true⟩ := by
    rw [hkl]
    unfold pfStep
    rw [keyMatch_keyline c cs ind hc hcs, hindstrip]
    simp [hind, startsSpace, flushFM]
  rw [hstep1, foldl_block LS _ rfl (fun l hl => (hLS l hl).1)]
  have hfilter : (LS.map pyStrip).filter (fun l => !l.isEmpty) =
      LS.map pyStrip := by
    rw [List.filter_eq_self]
    intro a ha
    simp only [List.mem_map] at ha
    obtain ⟨l, hl, rfl⟩ := ha
    simpa [List.isEmpty_iff] using (hLS l hl).2.2
  simp [flushFM, hfilter, dictSet]

/-- C7: for every header field whose inline value is a block-scalar
indicator (`>`, `>-`, `|` or `|-`) followed by indented lines, the parsed
value is those lines' trimmed content joined by single spaces, in order;
the right-hand side does not mention the indicator, so all four folded and
literal styles yield the identical value. -/
theorem c7_block_scalar_value (k ind B : String) (ls : List String)
    (hk : isKeyToken k.data = true)
    (hind : ind ∈ ([">", ">-", "|", "|-"] : List String))
    (hls : ∀ l ∈ ls, startsSpace l.data = true ∧ '\n' ∉ l.data ∧
      pyStrip l.data ≠ []) :
    (parse_frontmatter (blockDoc k ind ls B)).1 = [(k, spaceJoinTrim ls)] := by
  obtain ⟨c, cs, hkd⟩ : ∃ c cs, k.data = c :: cs := by
    cases h : k.data with
    | nil => rw [h] at hk; exact absurd hk (by simp [isKeyToken])
    | cons c cs => exact ⟨c, cs, rfl⟩
  rw [hkd] at hk
  simp only [isKeyToken, Bool.and_eq_true, List.all_eq_true] at hk
  obtain ⟨hc, hcs⟩ := hk
  have hindprops : isIndicator ind.data = true ∧ '\n' ∉ ind.data ∧
      pyStrip (' ' :: ind.data) = ind.data := by
    simp only [List.mem_cons, List.not_mem_nil, or_false] at hind
    rcases hind with rfl | rfl | rfl | rfl <;> refine ⟨by decide, ?_, by decide⟩ <;> decide
  obtain ⟨hi1, hi2, hi3⟩ := hindprops
  have hdata : (blockDoc k ind ls B).data =
      '-' :: '-' :: '-' :: '\n' ::
        ((c :: cs) ++ ':' :: ' ' :: ind.data ++ lsJoin (ls.map String.data) ++
          ('\n' :: '-' :: '-' :: '-' :: B.data)) := by
    simp [blockDoc, joinNLs_data, hkd]
  have hLS : ∀ l ∈ ls.map String.data, startsSpace l = true ∧ '\n' ∉ l ∧
      pyStrip l ≠ [] := by
    intro l hl
    simp only [List.mem_map] at hl
    obtain ⟨s, hs, rfl⟩ := hl
    exact hls s hs
  unfold parse_frontmatter
  simp only [hdata]
  rw [parseFrontmatterL_block c cs ind.data (ls.map String.data) B.data
    hc (fun x hx => hcs x hx) hi1 hi2 hi3 hLS]
  simp only [List.map_cons, List.map_nil, List.map_map]
  rw [show String.mk (c :: cs) = k from hkd ▸ rfl]
  rfl

/-- Witness for C7: a concrete two-line folded scalar. -/
theorem c7_block_scalar_value_witness :
    isKeyToken ("description" : String).data = true ∧
    (">" : String) ∈ ([">", ">-", "|", "|-"] : List String) ∧
    (∀ l ∈ (["  line one", "  line two"] : List String),
      startsSpace l.data = true ∧ '\n' ∉ l.data ∧ pyStrip l.data ≠ []) ∧
    (parse_frontmatter
        (blockDoc "description" ">" ["  line one", "  line two"] "\nB")).1 =
      [("description", spaceJoinTrim ["  line one", "  line two"])] :=
  ⟨by decide, by decide, by decide,
    c7_block_scalar_value "description" ">" "\nB"
      ["  line one", "  line two"] (by decide) (by decide) (by decide)⟩

/- ── JSON values and Python dynamic semantics ──────────────────────── -/

/-- A parsed JSON document (`json.loads` output).  Numbers are modelled as
integers; the validator never does arithmetic on them. -/
inductive JValue where
  | null
  | bool (b : Bool)
  | num (n : Int)
  | str (s : String)
  | arr (elems : List JValue)
  | obj (fields : List (String × JValue))
deriving Repr

mutual

/-- Python `==` on parsed JSON values (structural; the validator only ever
compares strings, where this is exact). -/
def JValue.beq : JValue → JValue → Bool
  | .null, .null => true
  | .bool a, .bool b => a == b
  | .num a, .num b => a == b
  | .str a, .str b => a == b
  | .arr a, .arr b => JValue.beqList a b
  | .obj a, .obj b => JValue.beqFields a b
  | _, _ => false

def JValue.beqList : List JValue → List JValue → Bool
  | [], [] => true
  | a :: as_, b :: bs => JValue.beq a b && JValue.beqList as_ bs
  | _, _ => false

def JValue.beqFields :
    List (String × JValue) → List (String × JValue) → Bool
  | [], [] => true
  | (k, v) :: as_, (k2, v2) :: bs =>
    k == k2 && JValue.beq v v2 && JValue.beqFields as_ bs
  | _, _ => false

end

instance : BEq JValue := ⟨JValue.beq⟩

/-- Python truthiness of a parsed JSON value (`if not x`). -/
def jTruthy : JValue → Bool
  | .null => false
  | .bool b => b
  | .num n => n != 0
  | .str s => !s.isEmpty
  | .arr l => !l.isEmpty
  | .obj l => !l.isEmpty

/-- `d.get(key, default)` for a receiver already known to be a dict. -/
def getD (fields : List (String × JValue)) (k : String) (dflt : JValue) :
    JValue :=
  (fields.lookup k).getD dflt

/-- `d.get(key)` (default `None`) for a receiver known to be a dict. -/
def get1 (fields : List (String × JValue)) (k : String) : JValue :=
  getD fields k .null

/-- `type(x).__name__` (used in one failure detail). -/
def pyTypeName : JValue → String
  | .null => "NoneType"
  | .bool _ => "bool"
  | .num _ => "int"
  | .str _ => "str"
  | .arr _ => "list"
  | .obj _ => "dict"

/-- f-string interpolation `f"{x}"` of a parsed JSON value.  Exact for
strings (the only case the checked scenarios exercise); other cases are a
simple rendering standing in for Python `str()`. -/
def jFmt : JValue → String
  | .null => "None"
  | .bool b => if b then "True" else "False"
  | .num n => toString n
  | .str s => s
  | .arr _ => "<list>"
  | .obj _ => "<dict>"

/-- `key in x` (the Python `in` operator as used on parsed JSON values):
key membership on a dict, substring on a string, element membership on a
list, TypeError otherwise. -/
def pyInE (needle : String) : JValue → Except String Bool
  | .obj f => .ok (f.lookup needle).isSome
  | .str s => .ok (hasSubstrS s needle)
  | .arr l => .ok (l.contains (.str needle))
  | _ => .error "TypeError"

/-- `x[key]`: KeyError on a missing dict key, TypeError on a non-dict. -/
def pyIndexStr (v : JValue) (k : String) : Except String JValue :=
  match v with
  | .obj f =>
    match f.lookup k with
    | some x => .ok x
    | none => .error "KeyError"
  | _ => .error "TypeError"

/-- `len(x)`: defined for strings, lists and dicts, TypeError otherwise. -/
def jLenE : JValue → Except String Nat
  | .str s => .ok s.length
  | .arr l => .ok l.length
  | .obj l => .ok l.length
  | _ => .error "TypeError"

/-- Iterating a parsed JSON value (`for e in x`): a list yields its
elements, a string its characters, a dict its keys; TypeError otherwise. -/
def pyIterE : JValue → Except String (List JValue)
  | .arr l => .ok l
  | .str s => .ok (s.data.map (fun c => .str (String.mk [c])))
  | .obj f => .ok (f.map (fun p => .str p.1))
  | _ => .error "TypeError"

/-- Attempting to use a value as a set element or dict key: lists and
dicts are unhashable (TypeError). -/
def hashableE : JValue → Except String Unit
  | .arr _ => .error "TypeError"
  | .obj _ => .error "TypeError"
  | _ => .ok ()

/-- The outcome of reading and JSON-parsing one file: the file may be
absent, unreadable (OSError from `read_text`), undecodable
(json.JSONDecodeError, carrying its message), or a parsed value. -/
inductive FileData where
  | missing
  | unreadable
  | invalidJSON (msg : String)
  | json (v : JValue)

/- ── the two validation regexes ────────────────────────────────────── -/

/-- `[a-z0-9]` of `KEBAB_RE`. -/
def isLowerDigit (c : Char) : Bool := c.isLower || c.isDigit

mutual

/-- `KEBAB_RE`’s automaton after the leading `[a-z]`: consume
`[a-z0-9]*(-[a-z0-9]+)*` to the end of the string. -/
def kebabRest : List Char → Bool
  | [] => true
  | c :: rest =>
    if c == '-' then kebabDash rest
    else isLowerDigit c && kebabRest rest

/-- After a hyphen: at least one `[a-z0-9]` must follow. -/
def kebabDash : List Char → Bool
  | [] => false
  | c :: rest => isLowerDigit c && kebabRest rest

end

/-- The full-string matcher of `^[a-z][a-z0-9]*(-[a-z0-9]+)*$`
(the alternatives are disjoint on the next character, so greedy matching
is exact). -/
def kebabCore : List Char → Bool
  | [] => false
  | c :: rest => c.isLower && kebabRest rest

/-- `(0|[1-9]\d*)`: consume a semver numeric identifier, returning the
rest.  `0` followed by more digits cannot match (both alternatives fail
under any continuation, since the continuations never start with a
digit). -/
def numPart : List Char → Option (List Char)
  | [] => none
  | c :: rest =>
    if c == '0' then some rest
    else if c.isDigit then some (rest.dropWhile Char.isDigit)
    else none

/-- `[0-9A-Za-z-]` of the prerelease part. -/
def isPreChar (c : Char) : Bool := c.isAlphanum || c == '-'

mutual

/-- Inside a prerelease identifier (at least one character seen):
continue it, or start the next dot-separated identifier. -/
def preRest : List Char → Bool
  | [] => true
  | c :: rest => if c == '.' then preGroup rest else isPreChar c && preRest rest

/-- Expecting a nonempty prerelease identifier `[0-9A-Za-z-]+`. -/
def preGroup : List Char → Bool
  | [] => false
  | c :: rest => isPreChar c && preRest rest

end

/-- The full-string matcher of `SEMVER_RE` (without the `$` newline
special case). -/
def semverCore (s : List Char) : Bool :=
  match numPart s with
  | none => false
  | some r1 =>
    match r1 with
    | '.' :: r2 =>
      match numPart r2 with
      | none => false
      | some r3 =>
        match r3 with
        | '.' :: r4 =>
          match numPart r4 with
          | none => false
          | some r5 =>
            match r5 with
            | [] => true
            | '-' :: r6 => preGroup r6
            | _ => false
        | _ => false
    | _ => false

/-- `re.match` with a `$`-terminated pattern: the pattern must cover the
whole string, or the whole string minus one trailing newline (Python `$`
also matches just before a final `\n`). -/
def matchDollar (core : List Char → Bool) (s : String) : Bool :=
  core s.data ||
    (s.data.getLast? == some '\n' && core s.data.dropLast)

/-- `KEBAB_RE.match(s)` as a Bool. -/
def reKebab (s : String) : Bool := matchDollar kebabCore s

/-- `SEMVER_RE.match(s)` as a Bool. -/
def reSemver (s : String) : Bool := matchDollar semverCore s

/-- `re.match(pattern, x)` on a dynamic value: TypeError unless `x` is a
string. -/
def reMatchE (core : String → Bool) : JValue → Except String Bool
  | .str s => .ok (core s)
  | _ => .error "TypeError"

/- ── Layer 1: skills (external reference validator) ────────────────── -/

/-- `layer1_skills`: the external `skills-ref` tool is abstracted by
whether it could be located/installed (`srFound`), plus each skill's
subprocess outcome (`srOk`, exit status 0) and combined output
(`srOut`).  If the tool is missing, one FAIL for the whole layer. -/
def layer1_skills (srFound : Bool) (srOk : String → String → Bool)
    (srOut : String → String → String) (skills : List (String × String)) :
    List Entry :=
  if !srFound then
    [record_fail "skills-ref"
      ("skills-ref CLI not found and could not be installed.\n" ++
        "Run: git submodule update --init && " ++
        "uv pip install -e deps/agentskills/skills-ref/")]
  else
    skills.map fun ps =>
      if srOk ps.1 ps.2 then record_pass (ps.1 ++ "/" ++ ps.2)
      else record_fail (ps.1 ++ "/" ++ ps.2) (pyStripS (srOut ps.1 ps.2))

/- ── Layer 2: plugin metadata (plugin.json) ────────────────────────── -/

/-- The component-path collection of `layer2_plugins` (lines 296-308): a
string component is collected as-is; the string values of a component map
are collected as-is; the string values of a once-nested map are collected
only when they start with `./` or contain `/`; anything deeper or of any
other type is skipped. -/
def collectPaths (comp : JValue) : List String :=
  match comp with
  | .str s => [s]
  | .obj fields =>
    fields.flatMap fun kv =>
      match kv.2 with
      | .str s => [s]
      | .obj fields2 =>
        fields2.flatMap fun kv2 =>
          match kv2.2 with
          | .str s =>
            if startsWithS s "./" || hasSubstrS s "/" then [s] else []
          | _ => []
      | _ => []
  | _ => []

/-- The per-path check of `layer2_plugins` (lines 309-328): relative-path
prefix, no `..` substring, then existence on disk. -/
def checkComponentPath (name field : String) (pathExists : String → Bool)
    (p : String) : List Entry :=
  if !(startsWithS p "./") then
    [record_fail (name ++ ": " ++ field ++ " path \x27" ++ p ++ "\x27")
      "Component paths must start with \x27./\x27"]
  else if hasSubstrS p ".." then
    [record_fail (name ++ ": " ++ field ++ " path \x27" ++ p ++ "\x27")
      "Component paths must not contain \x27..\x27"]
  else if !(pathExists p) then
    [record_fail
      (name ++ ": " ++ field ++ " path \x27" ++ p ++ "\x27 exists")
      ("plugins/" ++ name ++ "/" ++ String.mk (p.data.drop 2) ++
        " not found on disk")]
  else
    [record_pass (name ++ ": " ++ field ++ " path \x27" ++ p ++ "\x27 exists")]

/-- The component-field loop of `layer2_plugins`: for each of the four
component fields, a `None`/absent value is skipped, otherwise every
collected path gets its own check.  (All collected paths are strings, so
this block never raises.) -/
def componentChecks (name : String) (pathExists : String → Bool)
    (fields : List (String × JValue)) : List Entry :=
  ["commands", "hooks", "mcpServers", "agents"].flatMap fun f =>
    match get1 fields f with
    | .null => []
    | comp => (collectPaths comp).flatMap (checkComponentPath name f pathExists)

/-- `required field 'name'` check. -/
def nameRequiredCheck (name : String) (fields : List (String × JValue)) :
    List Entry :=
  if !jTruthy (getD fields "name" (.str "")) then
    [record_fail (name ++ ": required field \x27name\x27") "name is missing"]
  else [record_pass (name ++ ": required field \x27name\x27")]

/-- `name kebab-case` check; `re.match` raises TypeError on a truthy
non-string name. -/
def nameKebabCheck (name : String) (fields : List (String × JValue)) :
    Except String (List Entry) :=
  let v := getD fields "name" (.str "")
  if jTruthy v then do
    let m ← reMatchE reKebab v
    if !m then
      .ok [record_fail (name ++ ": name kebab-case")
        ("\x27" ++ jFmt v ++
          "\x27 does not match ^[a-z][a-z0-9]*(-[a-z0-9]+)*$")]
    else .ok [record_pass (name ++ ": name kebab-case")]
  else .ok []

/-- `name matches dir` check (Python `!=` on a JSON value and a string
never raises). -/
def nameMatchesDirCheck (name : String) (fields : List (String × JValue)) :
    List Entry :=
  let v := getD fields "name" (.str "")
  if jTruthy v && !(v == JValue.str name) then
    [record_fail (name ++ ": name matches dir")
      ("plugin.json name \x27" ++ jFmt v ++ "\x27 != directory \x27" ++
        name ++ "\x27")]
  else if jTruthy v then [record_pass (name ++ ": name matches dir")]
  else []

/-- `version present` / `semver version` checks. -/
def versionCheck (name : String) (fields : List (String × JValue)) :
    Except String (List Entry) :=
  let v := getD fields "version" (.str "")
  if !jTruthy v then
    .ok [record_fail (name ++ ": version present") "version field is missing"]
  else do
    let m ← reMatchE reSemver v
    if !m then
      .ok [record_fail (name ++ ": semver version")
        ("\x27" ++ jFmt v ++ "\x27 is not valid semver")]
    else .ok [record_pass (name ++ ": semver version")]

/-- `description present` / advisory length window (WARN outside 50-200
characters). -/
def descriptionCheck (name : String) (fields : List (String × JValue)) :
    Except String (List Entry) :=
  let v := getD fields "description" (.str "")
  if !jTruthy v then
    .ok [record_fail (name ++ ": description present")
      "description is missing"]
  else do
    let dlen ← jLenE v
    if dlen < 50 || dlen > 200 then
      .ok [record_warn
        (name ++ ": description length (" ++ toString dlen ++ " chars)")
        ("Recommended 50-200 chars, got " ++ toString dlen)]
    else .ok [record_pass (name ++ ": description length")]

/-- `author` check: non-empty string or object with non-empty `name`. -/
def authorCheck (name : String) (fields : List (String × JValue)) :
    List Entry :=
  let author := get1 fields "author"
  if !jTruthy author then
    [record_fail (name ++ ": author present") "author field is missing"]
  else
    match author with
    | .obj af =>
      if !jTruthy (get1 af "name") then
        [record_fail (name ++ ": author.name present")
          "author object missing \x27name\x27"]
      else [record_pass (name ++ ": author present")]
    | _ => [record_pass (name ++ ": author present")]

/-- The per-plugin body of `layer2_plugins`.  A missing file or a JSON
decode error records its FAIL and skips the remaining checks
(`continue`); an unreadable file raises OSError; a decodable file whose
top level is not an object raises AttributeError at the first `.get`. -/
def layer2_plugin (pathExists : String → Bool) (name : String)
    (fd : FileData) : Except String (List Entry) :=
  match fd with
  | .missing =>
    .ok [record_fail (name ++ ": file exists")
      ("plugins/" ++ name ++ "/.claude-plugin/plugin.json not found")]
  | .unreadable => .error "OSError"
  | .invalidJSON msg =>
    .ok [record_pass (name ++ ": file exists"),
      record_fail (name ++ ": valid JSON") msg]
  | .json (.obj fields) => do
    let e4 ← nameKebabCheck name fields
    let e6 ← versionCheck name fields
    let e7 ← descriptionCheck name fields
    .ok ([record_pass (name ++ ": file exists"),
        record_pass (name ++ ": valid JSON")] ++
      nameRequiredCheck name fields ++ e4 ++
      nameMatchesDirCheck name fields ++ e6 ++ e7 ++
      authorCheck name fields ++
      componentChecks name pathExists fields)
  | .json _ => .error "AttributeError"

/-- `layer2_plugins`: the per-plugin checks in discovery order. -/
def layer2_plugins (pathExists : String → String → Bool) :
    List (String × FileData) → Except String (List Entry)
  | [] => .ok []
  | p :: rest => do
    let es ← layer2_plugin (pathExists p.1) p.1 p.2
    let es2 ← layer2_plugins pathExists rest
    .ok (es ++ es2)

/- ── claim C9 ──────────────────────────────────────────────────────── -/

/-- C9: a declared component path containing `..` (in particular any
parent-directory traversal segment such as `../x`) yields exactly one
FAIL entry for that path, and the check is independent of the filesystem
(`pathExists` is never consulted), i.e. no existence resolution is
performed. -/
theorem c9_traversal_path_fails_without_resolution (name field p : String)
    (hp : hasSubstrS p ".." = true) :
    (∀ pe pe' : String → Bool,
      checkComponentPath name field pe p =
        checkComponentPath name field pe' p) ∧
    (∀ pe : String → Bool, ∃ d,
      checkComponentPath name field pe p =
        [record_fail (name ++ ": " ++ field ++ " path \x27" ++ p ++ "\x27")
          d]) := by
  constructor
  · intro pe pe'
    unfold checkComponentPath
    by_cases hs : startsWithS p "./" <;> simp [hs, hp]
  · intro pe
    unfold checkComponentPath
    by_cases hs : startsWithS p "./"
    · exact ⟨"Component paths must not contain \x27..\x27", by simp [hs, hp]⟩
    · exact ⟨"Component paths must start with \x27./\x27", by simp [hs]⟩

/-- Witness for C9 at the concrete path `../x`. -/
theorem c9_traversal_path_fails_without_resolution_witness :
    hasSubstrS "../x" ".." = true ∧
    ((∀ pe pe' : String → Bool,
      checkComponentPath "foo" "commands" pe "../x" =
        checkComponentPath "foo" "commands" pe' "../x") ∧
    (∀ pe : String → Bool, ∃ d,
      checkComponentPath "foo" "commands" pe "../x" =
        [record_fail "foo: commands path \x27../x\x27" d])) :=
  ⟨by decide,
    c9_traversal_path_fails_without_resolution "foo" "commands" "../x"
      (by decide)⟩

/- ── claim C10 ─────────────────────────────────────────────────────── -/

/-- C10: in the component-path collection, a string at the second nesting
level is collected only if it starts with `./` or contains `/`; one
without either is silently skipped — the whole component field produces no
entry at all — whereas a string at the top level or at the first nesting
level is always collected. -/
theorem c10_nested_collection_filter (a b s t u q : String)
    (hs : (startsWithS s "./" || hasSubstrS s "/") = false)
    (hq : (startsWithS q "./" || hasSubstrS q "/") = true) :
    collectPaths (.obj [(a, .obj [(b, .str s)])]) = [] ∧
    (∀ (name : String) (pe : String → Bool),
      componentChecks name pe [("commands", .obj [(a, .obj [(b, .str s)])])]
        = []) ∧
    collectPaths (.obj [(b, .str t)]) = [t] ∧
    collectPaths (.str u) = [u] ∧
    collectPaths (.obj [(a, .obj [(b, .str q)])]) = [q] := by
  obtain ⟨hs1, hs2⟩ : startsWithS s "./" = false ∧ hasSubstrS s "/" = false :=
    by simpa using hs
  refine ⟨by simp [collectPaths, hs1, hs2], ?_, by simp [collectPaths],
    by simp [collectPaths], ?_⟩
  · intro name pe
    simp [componentChecks, get1, getD, List.lookup, collectPaths, hs1, hs2]
  · by_cases hq1 : startsWithS q "./"
    · simp [collectPaths, hq1]
    · have hq2 : hasSubstrS q "/" = true := by
        cases h : hasSubstrS q "/"
        · simp [hq1, h] at hq
        · rfl
      simp [collectPaths, hq1, hq2]

/-- Witness for C10 with `s = "x"` (skipped) and `q = "./x"`
(collected). -/
theorem c10_nested_collection_filter_witness :
    ((startsWithS "x" "./" || hasSubstrS "x" "/") = false) ∧
    ((startsWithS "./x" "./" || hasSubstrS "./x" "/") = true) ∧
    (collectPaths (.obj [("k1", .obj [("k2", .str "x")])]) = [] ∧
    (∀ (name : String) (pe : String → Bool),
      componentChecks name pe
        [("commands", .obj [("k1", .obj [("k2", .str "x")])])] = []) ∧
    collectPaths (.obj [("k2", .str "lvl1")]) = ["lvl1"] ∧
    collectPaths (.str "top") = ["top"] ∧
    collectPaths (.obj [("k1", .obj [("k2", .str "./x")])]) = ["./x"]) :=
  ⟨by decide, by decide,
    c10_nested_collection_filter "k1" "k2" "x" "lvl1" "top" "./x"
      (by decide) (by decide)⟩

/- ── Layer 3: marketplace registry (marketplace.json) ──────────────── -/

/-- One iteration of the required-top-level-field loop; Python
`field not in data` raises TypeError when the decoded document is a
number, boolean or null. -/
def l3FieldCheck (data : JValue) (f : String) : Except String Entry := do
  let b ← pyInE f data
  if !b then
    pure (record_fail ("field: " ++ f)
      ("\x27" ++ f ++ "\x27 missing from marketplace.json"))
  else pure (record_pass ("field: " ++ f))

/-- The required-top-level-field loop (`name`, `owner`, `plugins`). -/
def l3TopFields (data : JValue) : Except String (List Entry) := do
  let e1 ← l3FieldCheck data "name"
  let e2 ← l3FieldCheck data "owner"
  let e3 ← l3FieldCheck data "plugins"
  .ok [e1, e2, e3]

/-- The `metadata.version` / `metadata.description` checks;
`data.get("metadata", {})` must be a dict or `.get` on it raises. -/
def l3MetaChecks (fs : List (String × JValue)) :
    Except String (List Entry) :=
  match getD fs "metadata" (.obj []) with
  | .obj ms => do
    let vEs ←
      if !jTruthy (get1 ms "version") then
        .ok [record_fail "field: metadata.version" "metadata.version missing"]
      else do
        let mv ← pyIndexStr (.obj ms) "version"
        let b ← reMatchE reSemver mv
        if !b then
          .ok [record_fail "field: metadata.version"
            ("\x27" ++ jFmt mv ++ "\x27 is not valid semver")]
        else .ok [record_pass "field: metadata.version"]
    let dEs :=
      if !jTruthy (get1 ms "description") then
        [record_fail "field: metadata.description"
          "metadata.description missing"]
      else [record_pass "field: metadata.description"]
    .ok (vEs ++ dEs)
  | _ => .error "AttributeError"

/-- The `name present` / `name kebab-case` block of the per-entry loop
(`ename` is the value used in labels and matched against the regex). -/
def l3EntryNameCheck (ename : JValue) (efs : List (String × JValue)) :
    Except String (List Entry) :=
  if !jTruthy (get1 efs "name") then
    .ok [record_fail (jFmt ename ++ ": name present") "missing \x27name\x27"]
  else do
    let m ← reMatchE reKebab ename
    if !m then
      .ok [record_fail (jFmt ename ++ ": name kebab-case")
        ("\x27" ++ jFmt ename ++ "\x27 does not match kebab-case")]
    else .ok [record_pass (jFmt ename ++ ": name kebab-case")]

/-- The `source present` / `source path exists` block of the per-entry
loop. -/
def l3EntrySourceCheck (ename : JValue) (efs : List (String × JValue))
    (sourceIsDir : String → Bool) : Except String (List Entry) :=
  if !jTruthy (get1 efs "source") then
    .ok [record_fail (jFmt ename ++ ": source present")
      "missing \x27source\x27"]
  else do
    let sv ← pyIndexStr (.obj efs) "source"
    match sv with
    | .str sp =>
      if !(sourceIsDir sp) then
        .ok [record_fail (jFmt ename ++ ": source path exists")
          (sp ++ " not found")]
      else .ok [record_pass (jFmt ename ++ ": source path exists")]
    | _ => .error "TypeError"

/-- One registry entry: `name` present and kebab-case, `source` present
and resolving to an existing directory (`REPO_ROOT / source`, whose
repo-root prefix is omitted from the rendered detail).  Also returns the
`ename` added to `mp_names` (a list or dict name is unhashable and
raises at the `set.add`). -/
def l3EntryCheck (sourceIsDir : String → Bool) (entry : JValue) :
    Except String (List Entry × JValue) :=
  match entry with
  | .obj efs => do
    let ename := getD efs "name" (.str "<unnamed>")
    hashableE ename
    let nameEs ← l3EntryNameCheck ename efs
    let srcEs ← l3EntrySourceCheck ename efs sourceIsDir
    .ok (nameEs ++ srcEs, ename)
  | _ => .error "AttributeError"

/-- The per-entry loop, accumulating entries and `mp_names`. -/
def l3EntryChecks (sourceIsDir : String → Bool) :
    List JValue → Except String (List Entry × List JValue)
  | [] => .ok ([], [])
  | e :: rest => do
    let r ← l3EntryCheck sourceIsDir e
    let rs ← l3EntryChecks sourceIsDir rest
    .ok (r.1 ++ rs.1, r.2 :: rs.2)

/-- Lexicographic code-point comparison on character lists — Python's
string `<=`. -/
def listLeChars : List Char → List Char → Bool
  | [], _ => true
  | _ :: _, [] => false
  | a :: as_, b :: bs =>
    if a.val < b.val then true
    else if b.val < a.val then false
    else listLeChars as_ bs

/-- Python `a <= b` on strings. -/
def strLe (a b : String) : Bool := listLeChars a.data b.data

/-- Insert into an ascending list (insertion sort step). -/
def insSorted (x : String) : List String → List String
  | [] => [x]
  | y :: ys => if strLe x y then x :: y :: ys else y :: insSorted x ys

/-- `sorted(set(l))`: the distinct names in ascending lexicographic
order. -/
def sortedSet (l : List String) : List String :=
  l.dedup.foldr insSorted []

/-- The orphan check: every plugin directory on disk must appear by name
in the registry's entry set. -/
def l3OrphanChecks (diskNames : List String) (mpNames : List JValue) :
    List Entry :=
  (sortedSet diskNames).map fun d =>
    if mpNames.contains (.str d) then
      record_pass (d ++ ": listed in marketplace")
    else
      record_fail (d ++ ": listed in marketplace")
        ("Plugin directory \x27" ++ d ++
          "\x27 exists on disk but is not in marketplace.json")

/-- `layer3_marketplace`: registry shape checks, per-entry checks, orphan
check; returns the decoded registry (for Layer 4) alongside the log.
The registry-root path prefix is omitted from rendered details. -/
def layer3_marketplace (fd : FileData) (sourceIsDir : String → Bool)
    (diskNames : List String) :
    Except String (List Entry × Option JValue) :=
  match fd with
  | .missing =>
    .ok ([record_fail "file exists" ".claude-plugin/marketplace.json not found"],
      none)
  | .unreadable => .error "OSError"
  | .invalidJSON msg =>
    .ok ([record_pass "file exists", record_fail "valid JSON" msg], none)
  | .json data => do
    let e1 ← l3TopFields data
    match data with
    | .obj fs => do
      let e2 ← l3MetaChecks fs
      match getD fs "plugins" (.arr []) with
      | .arr entries => do
        let r ← l3EntryChecks sourceIsDir entries
        .ok ([record_pass "file exists", record_pass "valid JSON"] ++
          e1 ++ e2 ++ r.1 ++ l3OrphanChecks diskNames r.2, some data)
      | mpv =>
        .ok ([record_pass "file exists", record_pass "valid JSON"] ++
          e1 ++ e2 ++
          [record_fail "plugins is array" ("plugins is " ++ pyTypeName mpv)],
          some data)
    | _ => .error "AttributeError"

/- ── Layer 4: cross-consistency ────────────────────────────────────── -/

/-- Python dict assignment on `JValue` keys (update in place or append). -/
def dictSetJ (d : List (JValue × JValue)) (k v : JValue) :
    List (JValue × JValue) :=
  match d with
  | [] => [(k, v)]
  | (k2, v2) :: rest =>
    if k2 == k then (k, v) :: rest else (k2, v2) :: dictSetJ rest k v

/-- Python dict lookup on `JValue` keys. -/
def dictGetJ (d : List (JValue × JValue)) (k : JValue) : Option JValue :=
  match d with
  | [] => none
  | (k2, v2) :: rest => if k2 == k then some v2 else dictGetJ rest k

/-- `{e["name"]: e for e in mp_data.get("plugins", []) if "name" in e}` —
later entries with the same name silently overwrite earlier ones. -/
def buildMpDictAux (acc : List (JValue × JValue)) :
    List JValue → Except String (List (JValue × JValue))
  | [] => .ok acc
  | e :: rest => do
    let b ← pyInE "name" e
    if b then do
      let k ← pyIndexStr e "name"
      hashableE k
      buildMpDictAux (dictSetJ acc k e) rest
    else buildMpDictAux acc rest

/-- The marketplace dict of Layer 4. -/
def buildMpDict (items : List JValue) :
    Except String (List (JValue × JValue)) :=
  buildMpDictAux [] items

/-- The per-plugin block of `layer4_cross`: re-read plugin.json with a
catch-all (any failure yields `{}`), skip plugins without a registry
entry, then compare names (exact) and versions (FAIL when both present
and different, WARN when either is missing). -/
def layer4_plugin (mpDict : List (JValue × JValue)) (name : String)
    (fd : FileData) : Except String (List Entry) :=
  let pj : JValue := match fd with | .json v => v | _ => .obj []
  match dictGetJ mpDict (.str name) with
  | none => .ok []
  | some mpEntry =>
    match pj, mpEntry with
    | .obj pfs, .obj mfs =>
      let pjName := getD pfs "name" (.str "")
      let nameEs :=
        if pjName == getD mfs "name" (.str "") then
          [record_pass (name ++ ": name matches plugin.json")]
        else
          [record_fail (name ++ ": name matches plugin.json")
            ("marketplace \x27" ++ jFmt (get1 mfs "name") ++
              "\x27 != plugin.json \x27" ++ jFmt pjName ++ "\x27")]
      let pjVer := getD pfs "version" (.str "")
      let mpVer := getD mfs "version" (.str "")
      let verEs :=
        if jTruthy pjVer && jTruthy mpVer && pjVer == mpVer then
          [record_pass (name ++ ": version matches plugin.json")]
        else if jTruthy pjVer && jTruthy mpVer then
          [record_fail (name ++ ": version matches plugin.json")
            ("marketplace \x27" ++ jFmt mpVer ++ "\x27 != plugin.json \x27" ++
              jFmt pjVer ++ "\x27")]
        else
          [record_warn (name ++ ": version comparison")
            "Version missing in one or both locations"]
      .ok (nameEs ++ verEs)
    | _, _ => .error "AttributeError"

/-- The plugin loop of `layer4_cross`. -/
def l4Plugins (mpDict : List (JValue × JValue)) :
    List (String × FileData) → Except String (List Entry)
  | [] => .ok []
  | p :: rest => do
    let es ← layer4_plugin mpDict p.1 p.2
    let es2 ← l4Plugins mpDict rest
    .ok (es ++ es2)

/-- The skill-reachability loop of `layer4_cross`. -/
def l4Reach (listed : List JValue) (skills : List (String × String)) :
    List Entry :=
  skills.map fun ps =>
    if listed.contains (.str ps.1) then
      record_pass (ps.1 ++ "/" ++ ps.2 ++ ": reachable")
    else
      record_fail (ps.1 ++ "/" ++ ps.2 ++ ": reachable")
        ("Skill belongs to plugin \x27" ++ ps.1 ++
          "\x27 which is not in marketplace")

/-- `layer4_cross`. -/
def layer4_cross (mpData : Option JValue)
    (plugins : List (String × FileData)) (skills : List (String × String)) :
    Except String (List Entry) :=
  match mpData with
  | none =>
    .ok [record_fail "marketplace data" "Skipped — marketplace.json invalid"]
  | some md => do
    let plv ← (match md with
      | .obj fs => .ok (getD fs "plugins" (.arr []))
      | _ => .error "AttributeError")
    let items ← pyIterE plv
    let mpDict ← buildMpDict items
    let pes ← l4Plugins mpDict plugins
    .ok (pes ++ l4Reach (mpDict.map (fun kv => kv.1)) skills)

/- ── Layer 5: skill quality (WARN-only heuristics) ─────────────────── -/

/-- One discovered skill directory as Layer 5 reads it: the `SKILL.md`
text (`none` models an unreadable file), the sorted `references/*.md`
files when that directory exists, and the names of the plain files in the
skill directory. -/
structure SkillDir where
  plugin : String
  name : String
  skillMd : Option String
  refsDir : Option (List (String × Option String))
  files : List String

/-- `", ".join(l)`. -/
def joinCommaSpace : List String → String
  | [] => ""
  | [s] => s
  | s :: rest => s ++ ", " ++ joinCommaSpace rest

/-- The reference-depth loop: scan each reference document (fenced code
blocks stripped first) for links back into `references/`; WARN and stop
at the first hit, one PASS if none. -/
def refsCheck (label : String) (stripFences : String → String) :
    List (String × Option String) → Except String (List Entry)
  | [] => .ok [record_pass (label ++ ": reference depth")]
  | (fname, c?) :: rest =>
    match c? with
    | none => .error "OSError"
    | some content =>
      if hasSubstrS (stripFences content) "](references/" then
        .ok [record_warn (label ++ ": reference depth")
          (fname ++ " contains nested references/ links")]
      else refsCheck label stripFences rest

/-- The per-skill block of `layer5_quality`.  `fsp` and `tc` stand for
`FIRST_SECOND_PERSON_RE.search` and `TRIGGER_CONTEXT_RE.search`, and
`stripFences` for the fenced-code-block `re.sub`; every theorem below
holds for all of them.  Reading `SKILL.md` is not wrapped in any
try/except, so an unreadable file raises. -/
def skillQualityChecks (fsp tc : String → Bool)
    (stripFences : String → String) (sd : SkillDir) :
    Except String (List Entry) :=
  let label := sd.plugin ++ "/" ++ sd.name
  match sd.skillMd with
  | none => .error "OSError"
  | some text =>
    let fm := (parse_frontmatter text).1
    let body := (parse_frontmatter text).2
    let desc := fmGetD fm "description"
    let voiceEs :=
      if !desc.isEmpty && fsp desc then
        [record_warn (label ++ ": description voice")
          "Description contains first/second person sentence start"]
      else [record_pass (label ++ ": description voice")]
    let trigEs :=
      if !desc.isEmpty && tc desc then
        [record_pass (label ++ ": description trigger context")]
      else if !desc.isEmpty then
        [record_warn (label ++ ": description trigger context")
          "Description lacks \x27when\x27/\x27use when\x27 trigger context"]
      else
        [record_warn (label ++ ": description trigger context")
          "No description found in frontmatter"]
    let bodyLines :=
      countNL body.data + (if !body.isEmpty && !endsWithNL body then 1 else 0)
    let sizeEs :=
      if bodyLines > 500 then
        [record_warn (label ++ ": body size (" ++ toString bodyLines ++
          " lines)") "Exceeds 500-line recommended maximum"]
      else
        [record_pass (label ++ ": body size (" ++ toString bodyLines ++
          " lines)")]
    do
      let refEs ← (match sd.refsDir with
        | none => .ok []
        | some files => refsCheck label stripFences files)
      let found := ["CHANGELOG.md", "INSTALLATION_GUIDE.md",
        "README.md"].filter (fun f => sd.files.contains f)
      let exEs :=
        if !found.isEmpty then
          [record_warn (label ++ ": no extraneous files")
            ("Found: " ++ joinCommaSpace found)]
        else [record_pass (label ++ ": no extraneous files")]
      .ok (voiceEs ++ trigEs ++ sizeEs ++ refEs ++ exEs)

/-- `layer5_quality`. -/
def layer5_quality (fsp tc : String → Bool) (stripFences : String → String) :
    List SkillDir → Except String (List Entry)
  | [] => .ok []
  | sd :: rest => do
    let es ← skillQualityChecks fsp tc stripFences sd
    let es2 ← layer5_quality fsp tc stripFences rest
    .ok (es ++ es2)

/- ── main ──────────────────────────────────────────────────────────── -/

/-- Everything a full run reads from the outside world: the external
`skills-ref` tool, the two heuristic regexes and the fence stripper of
Layer 5, the discovered plugin and skill lists, and the file contents. -/
structure Env where
  srFound : Bool
  srOk : String → String → Bool
  srOut : String → String → String
  fsp : String → Bool
  tc : String → Bool
  stripFences : String → String
  plugins : List (String × FileData)
  pathExists : String → String → Bool
  marketplace : FileData
  sourceIsDir : String → Bool
  skills : List SkillDir

/-- `main()`: run the five layers in order and exit `1 if failed > 0 else
0`.  An uncaught exception in any layer aborts the run (no exit-status
computation happens). -/
def runPipeline (env : Env) : Except String (List Entry × Nat) := do
  let skillPairs := env.skills.map fun sd => (sd.plugin, sd.name)
  let l1 := layer1_skills env.srFound env.srOk env.srOut skillPairs
  let l2 ← layer2_plugins env.pathExists env.plugins
  let r3 ← layer3_marketplace env.marketplace env.sourceIsDir
    (env.plugins.map (fun p => p.1))
  let l4 ← layer4_cross r3.2 env.plugins skillPairs
  let l5 ← layer5_quality env.fsp env.tc env.stripFences env.skills
  let es := l1 ++ l2 ++ r3.1 ++ l4 ++ l5
  .ok (es, if countFails es > 0 then 1 else 0)

/- ── shared concrete scenarios ─────────────────────────────────────── -/

/-- A well-formed `plugin.json` for plugin `foo` with the given version
string. -/
def manifestFoo (ver : String) : FileData :=
  .json (.obj [("name", .str "foo"), ("version", .str ver),
    ("description",
      .str "This plugin does things for testing purposes, okay"),
    ("author", .str "A")])

/-- A registry entry with the given name, source and version. -/
def regEntryNSV (n src ver : String) : JValue :=
  .obj [("name", .str n), ("source", .str src), ("version", .str ver)]

/-- A well-formed decoded `marketplace.json` with the given entry list. -/
def mpObj (entries : List JValue) : JValue :=
  .obj [("name", .str "mp"), ("owner", .str "own"),
    ("metadata", .obj [("version", .str "1.0.0"), ("description", .str "d")]),
    ("plugins", .arr entries)]

/-- The same, as a read file. -/
def mpFile (entries : List JValue) : FileData := .json (mpObj entries)

/-- An environment where the external tool is present, every disk path
exists and every subprocess succeeds. -/
def mkEnv (plugins : List (String × FileData)) (mp : FileData)
    (skills : List SkillDir) : Env := {
  srFound := true, srOk := fun _ _ => true, srOut := fun _ _ => "",
  fsp := fun _ => false, tc := fun _ => true, stripFences := id,
  plugins := plugins, pathExists := fun _ _ => true,
  marketplace := mp, sourceIsDir := fun _ => true, skills := skills }

/- ── claim C1 ──────────────────────────────────────────────────────── -/

theorem exceptBindOk {α β : Type} {x : Except String α}
    {f : α → Except String β} {r : β} (h : (x >>= f) = .ok r) :
    ∃ a, x = .ok a ∧ f a = .ok r := by
  cases x with
  | error e => simp [Bind.bind, Except.bind] at h
  | ok a => exact ⟨a, rfl, by simpa [Bind.bind, Except.bind] using h⟩

/-- C1: whenever the full pipeline runs to completion, the exit status is
`1` exactly when the number of recorded FAIL entries is positive and `0`
otherwise — so exit 0 iff zero FAILs, and the status is a function of the
FAIL count alone (WARN entries cannot affect it). -/
theorem c1_exit_zero_iff_no_fails (env : Env) (res : List Entry × Nat)
    (h : runPipeline env = .ok res) :
    res.2 = (if 0 < countFails res.1 then 1 else 0) ∧
    (res.2 = 0 ↔ countFails res.1 = 0) := by
  unfold runPipeline at h
  obtain ⟨l2, h2, h⟩ := exceptBindOk h
  obtain ⟨r3, h3, h⟩ := exceptBindOk h
  obtain ⟨l4, h4, h⟩ := exceptBindOk h
  obtain ⟨l5, h5, h⟩ := exceptBindOk h
  simp only [Except.ok.injEq] at h
  subst h
  refine ⟨rfl, ?_⟩
  by_cases hf : countFails (layer1_skills env.srFound env.srOk env.srOut
      (env.skills.map fun sd => (sd.plugin, sd.name)) ++ l2 ++ r3.1 ++ l4 ++
      l5) = 0 <;>
    simp [hf, Nat.pos_of_ne_zero]

/-- The scenario-A environment: no plugins, no skills, an empty but
well-formed registry. -/
def envA : Env := mkEnv [] (mpFile []) []

/-- The completed run on `envA`. -/
def resA : List Entry × Nat := (runPipeline envA).toOption.getD ([], 7)

/-- Witness for C1: the pipeline completes on `envA` (with exit 0 and no
FAILs). -/
theorem c1_exit_zero_iff_no_fails_witness :
    runPipeline envA = .ok resA ∧
    (resA.2 = (if 0 < countFails resA.1 then 1 else 0) ∧
      (resA.2 = 0 ↔ countFails resA.1 = 0)) :=
  ⟨rfl, c1_exit_zero_iff_no_fails envA resA rfl⟩

/- ── claim C8 ──────────────────────────────────────────────────────── -/

theorem countFails_append (a b : List Entry) :
    countFails (a ++ b) = countFails a + countFails b :=
  List.countP_append _ _ _

theorem refsCheck_no_fail (label : String) (strip : String → String)
    (files : List (String × Option String)) (es : List Entry)
    (h : refsCheck label strip files = .ok es) : countFails es = 0 := by
  induction files generalizing es with
  | nil =>
    simp only [refsCheck, Except.ok.injEq] at h
    subst h
    simp [countFails, record_pass]
  | cons f rest ih =>
    obtain ⟨fname, c?⟩ := f
    cases c? with
    | none => simp [refsCheck] at h
    | some content =>
      simp only [refsCheck] at h
      by_cases hc : hasSubstrS (strip content) "](references/" = true
      · rw [if_pos hc] at h
        simp only [Except.ok.injEq] at h
        subst h
        simp [countFails, record_warn]
      · rw [if_neg hc] at h
        exact ih _ h

theorem skillQualityChecks_no_fail (fsp tc : String → Bool)
    (strip : String → String) (sd : SkillDir) (es : List Entry)
    (h : skillQualityChecks fsp tc strip sd = .ok es) :
    countFails es = 0 := by
  unfold skillQualityChecks at h
  cases hmd : sd.skillMd with
  | none => rw [hmd] at h; simp at h
  | some text =>
    rw [hmd] at h
    obtain ⟨refEs, href, h⟩ := exceptBindOk h
    simp only [Except.ok.injEq] at h
    subst h
    have hr : countFails refEs = 0 := by
      cases hrd : sd.refsDir with
      | none =>
        rw [hrd] at href
        simp only [Except.ok.injEq] at href
        subst href
        rfl
      | some files =>
        rw [hrd] at href
        exact refsCheck_no_fail _ _ _ _ href
    simp only [countFails] at hr ⊢
    split_ifs <;>
      simp [record_pass, record_warn, List.countP_append, List.countP_cons, hr]

/-- C8: Layer 5 appends only PASS and WARN entries — whenever it returns,
its log contains zero FAIL entries, so the failed counter and the
failure-detail list are left unchanged and Layer 5 alone can never make
the build fail.  This holds for every choice of the two heuristic regexes
and of the fence stripper. -/
theorem c8_layer5_warn_only (fsp tc : String → Bool)
    (strip : String → String) (skills : List SkillDir) (es : List Entry)
    (h : layer5_quality fsp tc strip skills = .ok es) :
    countFails es = 0 := by
  induction skills generalizing es with
  | nil =>
    simp only [layer5_quality, Except.ok.injEq] at h
    subst h
    rfl
  | cons sd rest ih =>
    simp only [layer5_quality] at h
    obtain ⟨e1, h1, h⟩ := exceptBindOk h
    obtain ⟨e2, h2, h⟩ := exceptBindOk h
    simp only [Except.ok.injEq] at h
    subst h
    rw [countFails_append, skillQualityChecks_no_fail _ _ _ _ _ h1, ih _ h2]

/-- A concrete skill for the C8 witness. -/
def skC8 : SkillDir := {
  plugin := "foo", name := "sk1",
  skillMd := some "---\ndescription: makes things\n---\nbody",
  refsDir := some [("r.md", some "see [a](references/a.md)")],
  files := ["README.md"] }

/-- The Layer 5 log on `skC8`. -/
def c8es : List Entry :=
  (layer5_quality (fun _ => false) (fun _ => true) id [skC8]).toOption.getD
    [record_fail "x" ""]

/-- Witness for C8 at a concrete skill (which triggers two WARNs). -/
theorem c8_layer5_warn_only_witness :
    layer5_quality (fun _ => false) (fun _ => true) id [skC8] = .ok c8es ∧
    countFails c8es = 0 :=
  ⟨rfl, c8_layer5_warn_only (fun _ => false) (fun _ => true) id [skC8] c8es
    rfl⟩

/- ── claim C4 ──────────────────────────────────────────────────────── -/

/-- A run whose registry lists the same (valid, manifest-matching) entry
twice. -/
def envC4 : Env := mkEnv [("foo", manifestFoo "1.0.0")]
  (mpFile [regEntryNSV "foo" "plugins/foo" "1.0.0",
    regEntryNSV "foo" "plugins/foo" "1.0.0"]) []

/-- The completed run on `envC4`. -/
def resC4 : List Entry × Nat := (runPipeline envC4).toOption.getD ([], 7)

/-- C4 counterexample: with two identical registry entries named `foo`
the whole pipeline records no FAIL and no WARN and exits 0 — nothing
flags the duplication as a mismatch. -/
theorem c4_counterexample_duplicates_unflagged :
    runPipeline envC4 = .ok resC4 ∧ countFails resC4.1 = 0 ∧
    countWarns resC4.1 = 0 ∧ resC4.2 = 0 :=
  ⟨rfl, rfl, rfl, rfl⟩

theorem beq_jvalue_def (a b : JValue) : (a == b) = JValue.beq a b := rfl

/-- C4 amended: duplicate registry names are not flagged; Layer 4's
name-keyed dict silently merges duplicates, keeping only the last entry
with a given name (each entry is still checked individually by Layer 3's
per-entry loop). -/
theorem c4_amended_last_duplicate_wins (n src v1 v2 : String) :
    buildMpDict [regEntryNSV n src v1, regEntryNSV n src v2] =
      .ok [(.str n, regEntryNSV n src v2)] := by
  unfold buildMpDict regEntryNSV
  simp [buildMpDictAux, pyInE, pyIndexStr, hashableE, dictSetJ, List.lookup,
    Bind.bind, Except.bind, beq_jvalue_def, JValue.beq]

/- ── claim C2 ──────────────────────────────────────────────────────── -/

/-- Layer 2 log for a `foo` manifest carrying the invalid semver
`"1.0"`. -/
def c2L2 : List Entry :=
  (layer2_plugins (fun _ _ => true) [("foo", manifestFoo "1.0")]).toOption.getD
    []

/-- Layer 4 log when the registry carries `"1.0.0"` for the same
plugin. -/
def c2L4 : List Entry :=
  (layer4_cross (some (mpObj [regEntryNSV "foo" "plugins/foo" "1.0.0"]))
    [("foo", manifestFoo "1.0")] []).toOption.getD [record_pass "x"]

/-- C2 counterexample: manifest version `"1.0"` (invalid semver) with
registry version `"1.0.0"` — Layer 2 FAILs the semver check as claimed,
but Layer 4 records a FAIL (not a WARN) for the version comparison: there
is no WARN at all in its log. -/
theorem c2_counterexample_layer4_fails_not_warns :
    layer2_plugins (fun _ _ => true) [("foo", manifestFoo "1.0")] =
      .ok c2L2 ∧
    layer4_cross (some (mpObj [regEntryNSV "foo" "plugins/foo" "1.0.0"]))
      [("foo", manifestFoo "1.0")] [] = .ok c2L4 ∧
    c2L2.countP (fun e =>
      e.status == Status.fail && e.label == "foo: semver version") = 1 ∧
    c2L4.countP (fun e =>
      e.status == Status.warn && e.label == "foo: version comparison") = 0 ∧
    countWarns c2L4 = 0 ∧
    c2L4.countP (fun e => e.status == Status.fail &&
      e.label == "foo: version matches plugin.json") = 1 :=
  ⟨rfl, rfl, rfl, rfl, rfl, rfl⟩

/-- C2 amended: in scenario C, Layer 2 FAILs the semver check, and Layer
4 also records a FAIL (not a WARN) for the version comparison, since both
versions are present and differ; the WARN branch is reserved for a
version missing on either side. -/
theorem c2_amended_version_mismatch_fails (vr : String)
    (h1 : vr.isEmpty = false) (h2 : (("1.0" : String) == vr) = false) :
    c2L2.countP (fun e =>
      e.status == Status.fail && e.label == "foo: semver version") = 1 ∧
    ∃ l4, layer4_cross (some (mpObj [regEntryNSV "foo" "plugins/foo" vr]))
        [("foo", manifestFoo "1.0")] [] = .ok l4 ∧
      l4.countP (fun e => e.status == Status.fail &&
        e.label == "foo: version matches plugin.json") = 1 ∧
      countWarns l4 = 0 := by
  refine ⟨rfl, [record_pass "foo: name matches plugin.json",
    record_fail "foo: version matches plugin.json"
      ("marketplace \x27" ++ vr ++ "\x27 != plugin.json \x27" ++ "1.0" ++
        "\x27")], ?_, ?_, ?_⟩
  · unfold layer4_cross mpObj regEntryNSV manifestFoo
    simp [getD, get1, List.lookup, pyIterE, buildMpDict, buildMpDictAux,
      pyInE, pyIndexStr, hashableE, dictSetJ, dictGetJ, l4Plugins,
      layer4_plugin, l4Reach, Bind.bind, Except.bind, beq_jvalue_def,
      JValue.beq, jTruthy, jFmt, h1, h2]
    intro hemp
    exact absurd hemp (by decide)
  · simp [List.countP_cons, record_pass, record_fail]
  · simp [countWarns, List.countP_cons, record_pass, record_fail]

/-- Witness for C2 amended at the registry version `"1.0.0"`. -/
theorem c2_amended_version_mismatch_fails_witness :
    ("1.0.0" : String).isEmpty = false ∧
    (("1.0" : String) == ("1.0.0" : String)) = false ∧
    (c2L2.countP (fun e =>
      e.status == Status.fail && e.label == "foo: semver version") = 1 ∧
    ∃ l4, layer4_cross
        (some (mpObj [regEntryNSV "foo" "plugins/foo" "1.0.0"]))
        [("foo", manifestFoo "1.0")] [] = .ok l4 ∧
      l4.countP (fun e => e.status == Status.fail &&
        e.label == "foo: version matches plugin.json") = 1 ∧
      countWarns l4 = 0) :=
  ⟨by decide, by decide,
    c2_amended_version_mismatch_fails "1.0.0" (by decide) (by decide)⟩

/- ── claim C3 ──────────────────────────────────────────────────────── -/

/-- Layer 3 result for disk plugin `foo` and an empty registry entry
list. -/
def c3L3 : List Entry × Option JValue :=
  (layer3_marketplace (mpFile []) (fun _ => true) ["foo"]).toOption.getD
    ([], none)

/-- Layer 4 log for the same scenario (no skills). -/
def c3L4 : List Entry :=
  (layer4_cross (some (mpObj [])) [("foo", manifestFoo "1.0.0")]
    []).toOption.getD [record_pass "x"]

/-- C3 counterexample: plugin `foo` exists on disk and is absent from the
registry's entry list; Layer 3 records exactly one corresponding FAIL,
but Layer 4 records zero FAIL entries (its plugin loop skips plugins
without a registry entry, and there is no skill to flag), refuting
"Layer 4 also records exactly one corresponding FAIL". -/
theorem c3_counterexample_layer4_records_nothing :
    layer3_marketplace (mpFile []) (fun _ => true) ["foo"] = .ok c3L3 ∧
    c3L3.1.countP (fun e => e.status == Status.fail &&
      e.label == "foo: listed in marketplace") = 1 ∧
    layer4_cross (some (mpObj [])) [("foo", manifestFoo "1.0.0")] [] =
      .ok c3L4 ∧
    countFails c3L4 = 0 :=
  ⟨rfl, rfl, rfl, rfl⟩

theorem mem_insSorted (a x : String) (l : List String) :
    a ∈ insSorted x l ↔ a = x ∨ a ∈ l := by
  induction l with
  | nil => simp [insSorted]
  | cons y ys ih =>
    by_cases h : strLe x y = true
    · simp [insSorted, h]
    · simp only [insSorted, if_neg h, List.mem_cons, ih]
      tauto

theorem nodup_insSorted (x : String) (l : List String) (hx : x ∉ l)
    (h : l.Nodup) : (insSorted x l).Nodup := by
  induction l with
  | nil => simp [insSorted]
  | cons y ys ih =>
    rw [List.nodup_cons] at h
    have hxy : x ≠ y := fun e => hx (e ▸ List.mem_cons_self y ys)
    have hxs : x ∉ ys := fun e => hx (List.mem_cons_of_mem y e)
    by_cases hc : strLe x y = true
    · rw [insSorted, if_pos hc, List.nodup_cons, List.nodup_cons]
      exact ⟨by simp [hxy, hxs], h.1, h.2⟩
    · rw [insSorted, if_neg hc, List.nodup_cons]
      refine ⟨?_, ih hxs h.2⟩
      rw [mem_insSorted]
      rintro (e | e)
      · exact hxy e.symm
      · exact h.1 e

theorem mem_foldr_insSorted (a : String) (d : List String) :
    a ∈ d.foldr insSorted [] ↔ a ∈ d := by
  induction d with
  | nil => simp
  | cons x xs ih => simp [mem_insSorted, ih]

theorem nodup_foldr_insSorted (d : List String) (h : d.Nodup) :
    (d.foldr insSorted []).Nodup := by
  induction d with
  | nil => simp
  | cons x xs ih =>
    rw [List.nodup_cons] at h
    exact nodup_insSorted x _ (fun e => h.1 ((mem_foldr_insSorted x xs).mp e))
      (ih h.2)

theorem mem_sortedSet (a : String) (l : List String) :
    a ∈ sortedSet l ↔ a ∈ l := by
  unfold sortedSet
  rw [mem_foldr_insSorted, List.mem_dedup]

theorem nodup_sortedSet (l : List String) : (sortedSet l).Nodup :=
  nodup_foldr_insSorted _ (List.nodup_dedup l)

theorem string_append_right_cancel (a b s : String) (h : a ++ s = b ++ s) :
    a = b := by
  have hd : a.data ++ s.data = b.data ++ s.data := congrArg String.data h
  have h2 := List.append_cancel_right hd
  cases a
  cases b
  exact congrArg String.mk h2

/-- The orphan check of Layer 3 records exactly one FAIL for a disk
plugin missing from the registry names. -/
theorem l3OrphanChecks_count_one (pname : String) (diskNames : List String)
    (mpNames : List JValue) (hmem : pname ∈ diskNames)
    (habs : mpNames.contains (.str pname) = false) :
    (l3OrphanChecks diskNames mpNames).countP (fun e =>
      e.status == Status.fail &&
        e.label == pname ++ ": listed in marketplace") = 1 := by
  unfold l3OrphanChecks
  rw [List.countP_map]
  have key : ∀ d : String,
      ((fun e => e.status == Status.fail &&
          e.label == pname ++ ": listed in marketplace") ∘
        (fun d => if mpNames.contains (.str d) then
          record_pass (d ++ ": listed in marketplace")
        else record_fail (d ++ ": listed in marketplace")
          ("Plugin directory \x27" ++ d ++
            "\x27 exists on disk but is not in marketplace.json"))) d =
      (d == pname) := by
    intro d
    by_cases hd : d = pname
    · subst hd
      simp [habs, record_fail]
    · have hlab : (d ++ ": listed in marketplace" ==
          pname ++ ": listed in marketplace") = false := by
        rw [beq_eq_false_iff_ne]
        intro e
        exact hd (string_append_right_cancel _ _ _ e)
      by_cases hc : mpNames.contains (.str d) = true <;>
        simp [hc, record_pass, record_fail, hlab, hd]
  calc (sortedSet diskNames).countP _
      = (sortedSet diskNames).countP (fun d => d == pname) :=
        List.countP_congr (fun d _ => by rw [key d])
    _ = 1 := by
        rw [show (fun d : String => d == pname) = (· == pname) from rfl,
          ← List.count]
        exact List.count_eq_one_of_mem (nodup_sortedSet diskNames)
          ((mem_sortedSet pname diskNames).mpr hmem)

/-- C3 amended: for a disk plugin absent from the registry, Layer 3's
orphan check records exactly one corresponding FAIL, while Layer 4's only
corresponding entries are its skill-reachability checks: one FAIL per
discovered skill of that plugin (and no PASS) — so zero FAILs when the
plugin has no skills and exactly one only when it has exactly one. -/
theorem c3_amended_fail_counts (pname : String) (diskNames : List String)
    (mpNames listed : List JValue) (sks : List String)
    (hmem : pname ∈ diskNames)
    (habs3 : mpNames.contains (.str pname) = false)
    (habs4 : listed.contains (.str pname) = false) :
    (l3OrphanChecks diskNames mpNames).countP (fun e =>
      e.status == Status.fail &&
        e.label == pname ++ ": listed in marketplace") = 1 ∧
    countFails (l4Reach listed (sks.map (fun s => (pname, s)))) =
      sks.length ∧
    countPasses (l4Reach listed (sks.map (fun s => (pname, s)))) = 0 := by
  refine ⟨l3OrphanChecks_count_one pname diskNames mpNames hmem habs3,
    ?_, ?_⟩ <;>
  · induction sks with
    | nil => rfl
    | cons s ss ih =>
      simp only [l4Reach, List.map_cons, habs4, Bool.false_eq_true,
        if_false, countFails, countPasses, List.countP_cons,
        record_fail] at ih ⊢
      simp [← ih]

/-- Witness for C3 amended: one orphan plugin with exactly one skill. -/
theorem c3_amended_fail_counts_witness :
    ("foo" : String) ∈ (["foo"] : List String) ∧
    (([] : List JValue).contains (.str "foo") = false) ∧
    ((l3OrphanChecks ["foo"] []).countP (fun e =>
      e.status == Status.fail &&
        e.label == "foo" ++ ": listed in marketplace") = 1 ∧
    countFails (l4Reach [] (["sk1"].map (fun s => ("foo", s)))) =
      (["sk1"] : List String).length ∧
    countPasses (l4Reach [] (["sk1"].map (fun s => ("foo", s)))) = 0) :=
  ⟨by decide, by decide,
    c3_amended_fail_counts "foo" ["foo"] [] [] ["sk1"] (by decide)
      (by decide) (by decide)⟩

/- ── claim C5 ──────────────────────────────────────────────────────── -/

/-- Is the value a JSON string? -/
def isStrJ : JValue → Bool
  | .str _ => true
  | _ => false

/-- A value that can reach `re.match` without raising: falsy (the check
short-circuits first) or a string. -/
def scalarOkForRe (v : JValue) : Bool := !jTruthy v || isStrJ v

/-- A value `len` accepts. -/
def lenOkJ : JValue → Bool
  | .str _ => true
  | .arr _ => true
  | .obj _ => true
  | _ => false

/-- A hashable value (lists and dicts are not). -/
def notContainer : JValue → Bool
  | .arr _ => false
  | .obj _ => false
  | _ => true

/-- The plugin.json read outcomes on which Layer 2 cannot raise: a
missing file, a decode error (both are logged), or an object whose
`name`/`version` are strings when truthy and whose `description` has a
length when truthy. -/
def wfManifestFD : FileData → Bool
  | .missing => true
  | .unreadable => false
  | .invalidJSON _ => true
  | .json (.obj fs) =>
    scalarOkForRe (getD fs "name" (.str "")) &&
    scalarOkForRe (getD fs "version" (.str "")) &&
    (!jTruthy (getD fs "description" (.str "")) ||
      lenOkJ (getD fs "description" (.str "")))
  | .json _ => false

/-- A registry entry Layer 3 can process without raising. -/
def wfREntry : JValue → Bool
  | .obj efs =>
    (match List.lookup "name" efs with
     | none => true
     | some v => notContainer v && scalarOkForRe v) &&
    (match List.lookup "source" efs with
     | none => true
     | some v => !jTruthy v || isStrJ v)
  | _ => false

/-- `data["metadata"]`, when present, is an object whose `version` is a
string when truthy. -/
def wfMetaField (fs : List (String × JValue)) : Bool :=
  match List.lookup "metadata" fs with
  | none => true
  | some (.obj ms) =>
    (match List.lookup "version" ms with
     | none => true
     | some v => !jTruthy v || isStrJ v)
  | some _ => false

/-- `data["plugins"]`, when it is a list, holds only processable
entries (a non-list value is logged, not raised on). -/
def wfPluginsField (fs : List (String × JValue)) : Bool :=
  match List.lookup "plugins" fs with
  | none => true
  | some (.arr es) => es.all wfREntry
  | some _ => true

/-- The marketplace.json read outcomes on which Layer 3 cannot raise. -/
def wfRegistryFD : FileData → Bool
  | .missing => true
  | .unreadable => false
  | .invalidJSON _ => true
  | .json (.obj fs) => wfMetaField fs && wfPluginsField fs
  | .json _ => false

/-- All of a skill's file reads succeed. -/
def readsOkSkill (sd : SkillDir) : Bool :=
  sd.skillMd.isSome && (sd.refsDir.getD []).all (fun f => f.2.isSome)

theorem str_of_scalarOk {v : JValue} (h : scalarOkForRe v = true)
    (ht : jTruthy v = true) : ∃ s, v = .str s := by
  cases v <;> simp_all [scalarOkForRe, isStrJ, jTruthy]

theorem nameKebabCheck_ok (name : String) (fs : List (String × JValue))
    (h : scalarOkForRe (getD fs "name" (.str "")) = true) :
    ∃ es, nameKebabCheck name fs = .ok es := by
  by_cases ht : jTruthy (getD fs "name" (.str "")) = true
  · obtain ⟨s, hs⟩ := str_of_scalarOk h ht
    rw [hs] at ht
    by_cases hk : reKebab s = true <;>
      simp [nameKebabCheck, hs, ht, hk, reMatchE, Bind.bind, Except.bind]
  · exact ⟨[], by simp [nameKebabCheck, ht]⟩

theorem versionCheck_ok (name : String) (fs : List (String × JValue))
    (h : scalarOkForRe (getD fs "version" (.str "")) = true) :
    ∃ es, versionCheck name fs = .ok es := by
  by_cases ht : jTruthy (getD fs "version" (.str "")) = true
  · obtain ⟨s, hs⟩ := str_of_scalarOk h ht
    rw [hs] at ht
    by_cases hk : reSemver s = true <;>
      simp [versionCheck, hs, ht, hk, reMatchE, Bind.bind, Except.bind]
  · simp [versionCheck, ht]

theorem descriptionCheck_ok (name : String) (fs : List (String × JValue))
    (h : (!jTruthy (getD fs "description" (.str "")) ||
      lenOkJ (getD fs "description" (.str ""))) = true) :
    ∃ es, descriptionCheck name fs = .ok es := by
  by_cases ht : jTruthy (getD fs "description" (.str "")) = true
  · have hlen : lenOkJ (getD fs "description" (.str "")) = true := by
      rcases Bool.or_eq_true_iff.mp h with h2 | h2
      · rw [ht] at h2; exact absurd h2 (by decide)
      · exact h2
    obtain ⟨n, hn⟩ : ∃ n, jLenE (getD fs "description" (.str "")) = .ok n := by
      cases hv : getD fs "description" (.str "") <;>
        rw [hv] at hlen <;> simp_all [lenOkJ, jLenE]
    by_cases hr : (n < 50 || n > 200) = true <;>
      simp [descriptionCheck, ht, hn, hr, Bind.bind, Except.bind]
  · simp [descriptionCheck, ht]

theorem layer2_plugin_ok (pe : String → Bool) (name : String)
    (fd : FileData) (h : wfManifestFD fd = true) :
    ∃ es, layer2_plugin pe name fd = .ok es := by
  cases fd with
  | missing => exact ⟨_, rfl⟩
  | unreadable => simp [wfManifestFD] at h
  | invalidJSON msg => exact ⟨_, rfl⟩
  | json v =>
    cases v with
    | obj fs =>
      simp only [wfManifestFD, Bool.and_eq_true] at h
      obtain ⟨⟨h1, h2⟩, h3⟩ := h
      obtain ⟨e4, he4⟩ := nameKebabCheck_ok name fs h1
      obtain ⟨e6, he6⟩ := versionCheck_ok name fs h2
      obtain ⟨e7, he7⟩ := descriptionCheck_ok name fs h3
      simp [layer2_plugin, he4, he6, he7, Bind.bind, Except.bind]
    | null => simp [wfManifestFD] at h
    | bool b => simp [wfManifestFD] at h
    | num n => simp [wfManifestFD] at h
    | str s => simp [wfManifestFD] at h
    | arr l => simp [wfManifestFD] at h

theorem layer2_plugins_ok (pe : String → String → Bool)
    (plugins : List (String × FileData))
    (h : ∀ p ∈ plugins, wfManifestFD p.2 = true) :
    ∃ es, layer2_plugins pe plugins = .ok es := by
  induction plugins with
  | nil => exact ⟨[], rfl⟩
  | cons p ps ih =>
    obtain ⟨e1, he1⟩ := layer2_plugin_ok (pe p.1) p.1 p.2
      (h p (List.mem_cons_self p ps))
    obtain ⟨es, hes⟩ := ih (fun q hq => h q (List.mem_cons_of_mem p hq))
    exact ⟨e1 ++ es, by simp [layer2_plugins, he1, hes, Bind.bind,
      Except.bind]⟩

theorem l3FieldCheck_ok (fs : List (String × JValue)) (f : String) :
    ∃ en, l3FieldCheck (.obj fs) f = .ok en := by
  by_cases hb : (List.lookup f fs).isSome = true <;>
    simp [l3FieldCheck, pyInE, hb, Bind.bind, Except.bind, Pure.pure,
      Except.pure]

theorem l3TopFields_ok (fs : List (String × JValue)) :
    ∃ es, l3TopFields (.obj fs) = .ok es := by
  obtain ⟨e1, h1⟩ := l3FieldCheck_ok fs "name"
  obtain ⟨e2, h2⟩ := l3FieldCheck_ok fs "owner"
  obtain ⟨e3, h3⟩ := l3FieldCheck_ok fs "plugins"
  exact ⟨[e1, e2, e3],
    by simp [l3TopFields, h1, h2, h3, Bind.bind, Except.bind]⟩

theorem l3MetaChecks_ok (fs : List (String × JValue))
    (h : wfMetaField fs = true) : ∃ es, l3MetaChecks fs = .ok es := by
  unfold wfMetaField at h
  unfold l3MetaChecks
  cases hm : List.lookup "metadata" fs with
  | none =>
    have hg : getD fs "metadata" (.obj []) = .obj [] := by simp [getD, hm]
    rw [hg]
    simp [get1, getD, List.lookup, jTruthy, Bind.bind, Except.bind]
  | some m =>
    rw [hm] at h
    cases m with
    | obj ms =>
      have h2 : (match List.lookup "version" ms with
        | none => true
        | some v => !jTruthy v || isStrJ v) = true := by simpa using h
      have hg : getD fs "metadata" (.obj []) = .obj ms := by simp [getD, hm]
      by_cases ht : jTruthy (get1 ms "version") = true
      · cases hv : List.lookup "version" ms with
        | none =>
          have : get1 ms "version" = .null := by simp [get1, getD, hv]
          rw [this] at ht
          exact absurd ht (by decide)
        | some v =>
          rw [hv] at h2
          have hgv : get1 ms "version" = v := by simp [get1, getD, hv]
          rw [hgv] at ht
          obtain ⟨s, hs⟩ := str_of_scalarOk (show scalarOkForRe v = true
            from h2) ht
          subst hs
          by_cases hsem : reSemver s = true <;>
            simp [hg, ht, hgv, hv, pyIndexStr, reMatchE, hsem, Bind.bind,
              Except.bind]
      · simp [hg, ht, Bind.bind, Except.bind]
    | null => simp at h
    | bool b => simp at h
    | num n => simp at h
    | str s => simp at h
    | arr l => simp at h

theorem l3EntryNameCheck_ok (efs : List (String × JValue))
    (hn : (match List.lookup "name" efs with
      | none => true
      | some v => notContainer v && scalarOkForRe v) = true) :
    ∃ es, l3EntryNameCheck (getD efs "name" (.str "<unnamed>")) efs =
      .ok es := by
  by_cases ht : jTruthy (get1 efs "name") = true
  · cases hv : List.lookup "name" efs with
    | none =>
      have : get1 efs "name" = .null := by simp [get1, getD, hv]
      rw [this] at ht
      exact absurd ht (by decide)
    | some v =>
      rw [hv] at hn
      simp only [Bool.and_eq_true] at hn
      have hgv : get1 efs "name" = v := by simp [get1, getD, hv]
      rw [hgv] at ht
      obtain ⟨s, hs⟩ := str_of_scalarOk hn.2 ht
      subst hs
      have hge : getD efs "name" (.str "<unnamed>") = .str s := by
        simp [getD, hv]
      rw [hge]
      by_cases hk : reKebab s = true <;>
        simp [l3EntryNameCheck, hgv, ht, hk, reMatchE, Bind.bind,
          Except.bind]
  · simp [l3EntryNameCheck, ht]

theorem l3EntrySourceCheck_ok (ename : JValue)
    (efs : List (String × JValue)) (sid : String → Bool)
    (hsrc : (match List.lookup "source" efs with
      | none => true
      | some v => !jTruthy v || isStrJ v) = true) :
    ∃ es, l3EntrySourceCheck ename efs sid = .ok es := by
  by_cases ht : jTruthy (get1 efs "source") = true
  · cases hv : List.lookup "source" efs with
    | none =>
      have : get1 efs "source" = .null := by simp [get1, getD, hv]
      rw [this] at ht
      exact absurd ht (by decide)
    | some v =>
      rw [hv] at hsrc
      have hgv : get1 efs "source" = v := by simp [get1, getD, hv]
      rw [hgv] at ht
      obtain ⟨s, hs⟩ := str_of_scalarOk (show scalarOkForRe v = true
        from hsrc) ht
      subst hs
      by_cases hd : sid s = true <;>
        simp [l3EntrySourceCheck, hgv, ht, hv, pyIndexStr, hd, Bind.bind,
          Except.bind]
  · simp [l3EntrySourceCheck, ht]

theorem l3EntryCheck_ok (sid : String → Bool) (e : JValue)
    (h : wfREntry e = true) : ∃ r, l3EntryCheck sid e = .ok r := by
  cases e with
  | obj efs =>
    simp only [wfREntry, Bool.and_eq_true] at h
    obtain ⟨hn, hsrc⟩ := h
    have hh : hashableE (getD efs "name" (.str "<unnamed>")) = .ok () := by
      cases hv : List.lookup "name" efs with
      | none => simp [getD, hv, hashableE]
      | some v =>
        rw [hv] at hn
        simp only [Bool.and_eq_true] at hn
        have hg : getD efs "name" (.str "<unnamed>") = v := by
          simp [getD, hv]
        rw [hg]
        cases v <;> simp_all [notContainer, hashableE]
    obtain ⟨nes, hnes⟩ := l3EntryNameCheck_ok efs hn
    obtain ⟨ses, hses⟩ := l3EntrySourceCheck_ok
      (getD efs "name" (.str "<unnamed>")) efs sid hsrc
    exact ⟨(nes ++ ses, getD efs "name" (.str "<unnamed>")),
      by simp only [l3EntryCheck, hh, hnes, hses, Bind.bind, Except.bind]⟩
  | null => simp [wfREntry] at h
  | bool b => simp [wfREntry] at h
  | num n => simp [wfREntry] at h
  | str s => simp [wfREntry] at h
  | arr l => simp [wfREntry] at h

theorem l3EntryChecks_ok (sid : String → Bool) (es : List JValue)
    (h : es.all wfREntry = true) :
    ∃ r, l3EntryChecks sid es = .ok r := by
  induction es with
  | nil => exact ⟨_, rfl⟩
  | cons e rest ih =>
    simp only [List.all_cons, Bool.and_eq_true] at h
    obtain ⟨r1, h1⟩ := l3EntryCheck_ok sid e h.1
    obtain ⟨r2, h2⟩ := ih h.2
    exact ⟨(r1.1 ++ r2.1, r1.2 :: r2.2),
      by simp [l3EntryChecks, h1, h2, Bind.bind, Except.bind]⟩

theorem layer3_marketplace_ok (fd : FileData) (sid : String → Bool)
    (dn : List String) (h : wfRegistryFD fd = true) :
    ∃ r, layer3_marketplace fd sid dn = .ok r := by
  cases fd with
  | missing => exact ⟨_, rfl⟩
  | unreadable => simp [wfRegistryFD] at h
  | invalidJSON msg => exact ⟨_, rfl⟩
  | json v =>
    cases v with
    | obj fs =>
      simp only [wfRegistryFD, Bool.and_eq_true] at h
      obtain ⟨hmeta, hpl⟩ := h
      obtain ⟨e1, h1⟩ := l3TopFields_ok fs
      obtain ⟨e2, h2⟩ := l3MetaChecks_ok fs hmeta
      unfold layer3_marketplace
      cases hlook : List.lookup "plugins" fs with
      | none =>
        have hg : getD fs "plugins" (.arr []) = .arr [] := by
          simp [getD, hlook]
        simp [hg, h1, h2, l3EntryChecks, Bind.bind, Except.bind]
      | some pv =>
        have hg : getD fs "plugins" (.arr []) = pv := by simp [getD, hlook]
        unfold wfPluginsField at hpl
        rw [hlook] at hpl
        cases pv with
        | arr entries =>
          obtain ⟨r3, h3⟩ := l3EntryChecks_ok sid entries hpl
          simp [hg, h1, h2, h3, Bind.bind, Except.bind]
        | null => simp [hg, h1, h2, Bind.bind, Except.bind]
        | bool b => simp [hg, h1, h2, Bind.bind, Except.bind]
        | num n => simp [hg, h1, h2, Bind.bind, Except.bind]
        | str s => simp [hg, h1, h2, Bind.bind, Except.bind]
        | obj o => simp [hg, h1, h2, Bind.bind, Except.bind]
    | null => simp [wfRegistryFD] at h
    | bool b => simp [wfRegistryFD] at h
    | num n => simp [wfRegistryFD] at h
    | str s => simp [wfRegistryFD] at h
    | arr l => simp [wfRegistryFD] at h

theorem refsCheck_ok (label : String) (strip : String → String)
    (files : List (String × Option String))
    (h : files.all (fun f => f.2.isSome) = true) :
    ∃ es, refsCheck label strip files = .ok es := by
  induction files with
  | nil => exact ⟨_, rfl⟩
  | cons f rest ih =>
    obtain ⟨fname, c?⟩ := f
    simp only [List.all_cons, Bool.and_eq_true] at h
    cases c? with
    | none => simp at h
    | some content =>
      by_cases hc : hasSubstrS (strip content) "](references/" = true
      · exact ⟨[record_warn (label ++ ": reference depth")
          (fname ++ " contains nested references/ links")],
          by simp [refsCheck, hc]⟩
      · obtain ⟨es, hes⟩ := ih h.2
        exact ⟨es, by simp [refsCheck, hc, hes]⟩

theorem skillQualityChecks_ok (fsp tc : String → Bool)
    (strip : String → String) (sd : SkillDir)
    (h : readsOkSkill sd = true) :
    ∃ es, skillQualityChecks fsp tc strip sd = .ok es := by
  unfold readsOkSkill at h
  simp only [Bool.and_eq_true] at h
  obtain ⟨h1, h2⟩ := h
  cases hmd : sd.skillMd with
  | none => rw [hmd] at h1; simp at h1
  | some text =>
    unfold skillQualityChecks
    rw [hmd]
    cases hrd : sd.refsDir with
    | none => simp [Bind.bind, Except.bind]
    | some files =>
      rw [hrd] at h2
      simp only [Option.getD_some] at h2
      obtain ⟨res, hres⟩ := refsCheck_ok (sd.plugin ++ "/" ++ sd.name)
        strip files h2
      simp [hres, Bind.bind, Except.bind]

theorem layer5_quality_ok (fsp tc : String → Bool)
    (strip : String → String) (skills : List SkillDir)
    (h : ∀ sd ∈ skills, readsOkSkill sd = true) :
    ∃ es, layer5_quality fsp tc strip skills = .ok es := by
  induction skills with
  | nil => exact ⟨_, rfl⟩
  | cons sd rest ih =>
    obtain ⟨e1, h1⟩ := skillQualityChecks_ok fsp tc strip sd
      (h sd (List.mem_cons_self sd rest))
    obtain ⟨e2, h2⟩ := ih (fun q hq => h q (List.mem_cons_of_mem sd hq))
    exact ⟨e1 ++ e2,
      by simp [layer5_quality, h1, h2, Bind.bind, Except.bind]⟩

/-- A skill whose `SKILL.md` cannot be read. -/
def skUnreadable : SkillDir := {
  plugin := "foo", name := "sk1", skillMd := none, refsDir := none,
  files := [] }

/-- C5 counterexample: a valid-JSON non-object `plugin.json` makes Layer
2 raise AttributeError; an unreadable `plugin.json` makes it raise
OSError; an unreadable `SKILL.md` makes Layer 5 raise OSError.  None of
these errors is converted into a log entry — they propagate out of the
layer and abort the run. -/
theorem c5_counterexample_errors_propagate :
    layer2_plugins (fun _ _ => true) [("foo", .json (.arr []))] =
      .error "AttributeError" ∧
    layer2_plugins (fun _ _ => true) [("foo", .unreadable)] =
      .error "OSError" ∧
    layer5_quality (fun _ => false) (fun _ => false) id [skUnreadable] =
      .error "OSError" :=
  ⟨rfl, rfl, rfl⟩

/-- C5 amended: a malformed file in the sense of JSON decoding (or a
missing file) is always converted into a log entry and the layer returns
normally — Layers 2 and 3 return normally on every input whose file
reads succeed and whose decoded documents have the expected shapes, and
Layer 5 returns normally whenever all its file reads succeed.  (File-read
errors and valid-JSON non-object documents, by contrast, propagate: see
the counterexample.) -/
theorem c5_amended_decode_errors_logged :
    (∀ (pe : String → String → Bool) (plugins : List (String × FileData)),
      (∀ p ∈ plugins, wfManifestFD p.2 = true) →
      ∃ es, layer2_plugins pe plugins = .ok es) ∧
    (∀ (fd : FileData) (sid : String → Bool) (dn : List String),
      wfRegistryFD fd = true →
      ∃ r, layer3_marketplace fd sid dn = .ok r) ∧
    (∀ (fsp tc : String → Bool) (strip : String → String)
      (skills : List SkillDir),
      (∀ sd ∈ skills, readsOkSkill sd = true) →
      ∃ es, layer5_quality fsp tc strip skills = .ok es) :=
  ⟨layer2_plugins_ok, layer3_marketplace_ok, layer5_quality_ok⟩

/-- Witness for C5 amended: a JSON-decode failure in each of Layers 2
and 3 is tolerated (the layer returns normally), and Layer 5 returns
normally on a readable skill. -/
theorem c5_amended_decode_errors_logged_witness :
    (∃ es, layer2_plugins (fun _ _ => true)
      [("foo", .invalidJSON "Expecting value: line 1 column 1 (char 0)")] =
        .ok es) ∧
    (∃ r, layer3_marketplace (.invalidJSON "Expecting value") (fun _ => true)
      ["foo"] = .ok r) ∧
    (∃ es, layer5_quality (fun _ => false) (fun _ => true) id [skC8] =
      .ok es) :=
  ⟨c5_amended_decode_errors_logged.1 (fun _ _ => true)
      [("foo", .invalidJSON "Expecting value: line 1 column 1 (char 0)")]
      (by decide),
    c5_amended_decode_errors_logged.2.1 (.invalidJSON "Expecting value")
      (fun _ => true) ["foo"] (by decide),
    c5_amended_decode_errors_logged.2.2 (fun _ => false) (fun _ => true) id
      [skC8] (by decide)⟩

end MarketplaceValidator
